import Mathlib

/-!
# whisper.cpp Go bindings: token classification, language selection, Process

A shallow embedding of

* `bindings/go/whisper.go`               (package `whisper`, the cgo layer),
* `bindings/go/pkg/whisper/context.go`   (package `whisper`, the high-level API),
* `bindings/go/examples/go-whisper/process.go` (the example's run loop).

The C library behind cgo is not part of these sources.  It is represented by a
record of total functions over an arbitrary C memory `σ` (`Backend`), and every
call the Go code makes into it is appended to a call log, so that statements
such as "the backend is not invoked" are statements about that log.

Machine integers are `Int` with explicit wrap-around at narrowing conversions.
-/

set_option autoImplicit false

/-! ## Machine integers -/

/-- Two's-complement value of `x` in a signed 32-bit integer (C `int`, Go `int32`). -/
def wrap32 (x : Int) : Int := (x + 2147483648) % 4294967296 - 2147483648

/-- Two's-complement value of `x` in a signed 64-bit integer (Go `int64`, C `int64_t`). -/
def wrap64 (x : Int) : Int :=
  (x + 9223372036854775808) % 18446744073709551616 - 9223372036854775808

/-- Range of a signed 32-bit integer. -/
def InInt32 (x : Int) : Prop := -2147483648 ≤ x ∧ x ≤ 2147483647

/-- Range of a signed 64-bit integer. -/
def InInt64 (x : Int) : Prop := -9223372036854775808 ≤ x ∧ x ≤ 9223372036854775807

instance (x : Int) : Decidable (InInt32 x) := by unfold InInt32; infer_instance
instance (x : Int) : Decidable (InInt64 x) := by unfold InInt64; infer_instance

/-- A C pointer: an address, `0` being `NULL` / Go `nil`. -/
abbrev Ptr := Nat

/-- The nil pointer. -/
def nil : Ptr := 0

/-- IEEE-754 binary32 value, kept as its bit pattern: the bindings only copy such
values, they never compute with them. -/
structure float32 where
  bits : Nat
deriving DecidableEq, Repr

/-! ## Go runtime: results, panics, the call log -/

/-- Run-time panics of the Go code modelled here. -/
inductive Panic where
  /-- `index out of range [i] with length len`. -/
  | indexOutOfRange (i : Int) (len : Nat)
  /-- `makeslice: len out of range` / `makechan: size out of range`. -/
  | makeLenOutOfRange (n : Int)
  /-- `all goroutines are asleep - deadlock!`: the only goroutine blocks on a channel. -/
  | deadlock
deriving DecidableEq, Repr

/-- Calls into the C library, with their scalar arguments. -/
inductive CCall where
  | whisper_init_state (ctx : Ptr)
  | whisper_free_state (st : Ptr)
  | whisper_lang_id (lang : String)
  | whisper_lang_str (id : Int)
  | whisper_is_multilingual (ctx : Ptr)
  | whisper_token_eot (ctx : Ptr)
  | whisper_token_sot (ctx : Ptr)
  | whisper_token_prev (ctx : Ptr)
  | whisper_token_solm (ctx : Ptr)
  | whisper_token_not (ctx : Ptr)
  | whisper_token_beg (ctx : Ptr)
  | whisper_token_lang (ctx : Ptr) (id : Int)
  | whisper_print_timings (ctx : Ptr)
  | whisper_reset_timings (ctx : Ptr)
  | whisper_full_with_state (ctx st : Ptr) (n_samples : Int)
  | whisper_full_n_segments_from_state (st : Ptr)
  | whisper_full_get_segment_t0_from_state (st : Ptr) (segment : Int)
  | whisper_full_get_segment_t1_from_state (st : Ptr) (segment : Int)
  | whisper_full_get_segment_text_from_state (st : Ptr) (segment : Int)
  | whisper_full_n_tokens_from_state (st : Ptr) (segment : Int)
  | whisper_full_get_token_text_from_state (ctx st : Ptr) (segment token : Int)
  | whisper_full_get_token_id_from_state (st : Ptr) (segment token : Int)
  | whisper_full_get_token_data_from_state (st : Ptr) (segment token : Int)
  | whisper_full_get_token_p_from_state (st : Ptr) (segment token : Int)
deriving DecidableEq, Repr

/-- What the Go code can observe and change: the C library's memory and the log
of calls made into the library so far (oldest first). -/
structure World (σ : Type) where
  mem : σ
  calls : List CCall
deriving DecidableEq

/-- How a Go function ends: it returns a value or it panics. -/
inductive Result (α : Type) where
  | ret (a : α)
  | panic (p : Panic)
deriving DecidableEq, Repr

/-- A Go computation over the world. -/
def Go (σ α : Type) : Type := World σ → Result α × World σ

namespace Go

variable {σ α β : Type}

/-- Return a value, leaving the world as it is. -/
def ret (a : α) : Go σ α := fun w => (Result.ret a, w)

/-- Panic: the remaining statements are not executed. -/
def throw (p : Panic) : Go σ α := fun w => (Result.panic p, w)

/-- Sequencing: a panic of the first computation ends the whole. -/
def andThen (x : Go σ α) (f : α → Go σ β) : Go σ β := fun w =>
  match x w with
  | (Result.ret a, w1) => f a w1
  | (Result.panic p, w1) => (Result.panic p, w1)

/-- A C call that only reads the library's memory. -/
def read (c : CCall) (v : σ → α) : Go σ α := fun w =>
  (Result.ret (v w.mem), { w with calls := w.calls ++ [c] })

/-- A C call that may change the library's memory. -/
def update (c : CCall) (f : σ → α × σ) : Go σ α := fun w =>
  (Result.ret (f w.mem).1, { mem := (f w.mem).2, calls := w.calls ++ [c] })

end Go

instance (σ : Type) : Monad (Go σ) where
  pure := Go.ret
  bind := Go.andThen

/-! ## Package `whisper` (bindings/go/whisper.go) -/

namespace whisper

/-- The error values of both packages (`errors.New` values are pairwise distinct).
The last three are declared by the high-level package. -/
inductive Error where
  | ErrTokenizerFailed
  | ErrAutoDetectFailed
  | ErrConversionFailed
  | ErrInvalidLanguage
  | ErrInternalAppError
  | ErrModelNotMultilingual
  | ErrUnsupportedLanguage
deriving DecidableEq, Repr

/-- The C struct `whisper_token_data` as far as the bindings read it. -/
structure TokenData where
  id : Int
  t0 : Int
  t1 : Int
deriving DecidableEq, Repr

/-- The C library (`whisper.h`), which is not among the sources: each function is
an arbitrary total function of the library's memory `σ`.  `P` is the Go type
`Params` (`C.struct_whisper_full_params`). -/
structure Backend (σ P : Type) where
  whisper_init_state : σ → Ptr → Ptr × σ
  whisper_free_state : σ → Ptr → σ
  whisper_lang_id : String → Int
  whisper_lang_str : Int → Option String
  whisper_is_multilingual : σ → Ptr → Int
  whisper_token_eot : σ → Ptr → Int
  whisper_token_sot : σ → Ptr → Int
  whisper_token_prev : σ → Ptr → Int
  whisper_token_solm : σ → Ptr → Int
  whisper_token_not : σ → Ptr → Int
  whisper_token_beg : σ → Ptr → Int
  whisper_print_timings : σ → Ptr → σ
  whisper_reset_timings : σ → Ptr → σ
  whisper_full_with_state : σ → Ptr → Ptr → P → List float32 → Int → Int × σ
  whisper_full_n_segments_from_state : σ → Ptr → Int
  whisper_full_get_segment_t0_from_state : σ → Ptr → Int → Int
  whisper_full_get_segment_t1_from_state : σ → Ptr → Int → Int
  whisper_full_get_segment_text_from_state : σ → Ptr → Int → String
  whisper_full_n_tokens_from_state : σ → Ptr → Int → Int
  whisper_full_get_token_text_from_state : σ → Ptr → Ptr → Int → Int → String
  whisper_full_get_token_id_from_state : σ → Ptr → Int → Int → Int
  whisper_full_get_token_data_from_state : σ → Ptr → Int → Int → TokenData
  whisper_full_get_token_p_from_state : σ → Ptr → Int → Int → float32

/-- The methods of `Params` that `context.go` calls.  They are defined in
`params.go`, which is not among the sources, and are therefore parameters.
`SetLanguage` has a pointer receiver: it yields the updated value and its error. -/
structure ParamsOps (P : Type) where
  SetLanguage : P → Int → P × Option Error
  Language : P → Int

/-- The Go type `Token` is `C.whisper_token`, a C `int`: converting to it keeps
the low 32 bits. -/
def Token (x : Int) : Int := wrap32 x

/-- Conversion to `C.int`. -/
def C_int (x : Int) : Int := wrap32 x

/-- Conversion to Go `int64`. -/
def int64 (x : Int) : Int := wrap64 x

variable {σ P : Type}

/-- The method `Whisper_init_state`. -/
def Whisper_init_state (B : Backend σ P) (ctx : Ptr) : Go σ Ptr :=
  Go.update (CCall.whisper_init_state ctx) fun m => B.whisper_init_state m ctx

/-- The method `Close` of `*State`: a nil receiver frees nothing. -/
def State.Close (B : Backend σ P) (state : Ptr) : Go σ (Option Error) := do
  if state ≠ nil then
    Go.update (CCall.whisper_free_state state) fun m => ((), B.whisper_free_state m state)
  return none

/-- Value `Whisper_lang_id` returns. -/
def Whisper_lang_id_val (B : Backend σ P) (lang : String) : Int :=
  C_int (B.whisper_lang_id lang)

/-- The method `Whisper_lang_id`; the receiver is not passed on to C. -/
def Whisper_lang_id (B : Backend σ P) (_ctx : Ptr) (lang : String) : Go σ Int :=
  Go.read (CCall.whisper_lang_id lang) fun _ => Whisper_lang_id_val B lang

/-- The function `Whisper_lang_str`; `C.GoString` of `NULL` is the empty string. -/
def Whisper_lang_str (B : Backend σ P) (id : Int) : Go σ String :=
  Go.read (CCall.whisper_lang_str (C_int id)) fun _ => (B.whisper_lang_str (C_int id)).getD ""

/-- Value `Whisper_is_multilingual` returns in memory `m`. -/
def Whisper_is_multilingual_val (B : Backend σ P) (m : σ) (ctx : Ptr) : Int :=
  C_int (B.whisper_is_multilingual m ctx)

/-- The method `Whisper_is_multilingual`. -/
def Whisper_is_multilingual (B : Backend σ P) (ctx : Ptr) : Go σ Int :=
  Go.read (CCall.whisper_is_multilingual ctx) fun m => Whisper_is_multilingual_val B m ctx

/-- Value `Whisper_token_eot` returns in memory `m`. -/
def Whisper_token_eot_val (B : Backend σ P) (m : σ) (ctx : Ptr) : Int :=
  Token (B.whisper_token_eot m ctx)

/-- The method `Whisper_token_eot`. -/
def Whisper_token_eot (B : Backend σ P) (ctx : Ptr) : Go σ Int :=
  Go.read (CCall.whisper_token_eot ctx) fun m => Whisper_token_eot_val B m ctx

/-- Value `Whisper_token_sot` returns in memory `m`. -/
def Whisper_token_sot_val (B : Backend σ P) (m : σ) (ctx : Ptr) : Int :=
  Token (B.whisper_token_sot m ctx)

/-- The method `Whisper_token_sot`. -/
def Whisper_token_sot (B : Backend σ P) (ctx : Ptr) : Go σ Int :=
  Go.read (CCall.whisper_token_sot ctx) fun m => Whisper_token_sot_val B m ctx

/-- Value `Whisper_token_prev` returns in memory `m`. -/
def Whisper_token_prev_val (B : Backend σ P) (m : σ) (ctx : Ptr) : Int :=
  Token (B.whisper_token_prev m ctx)

/-- The method `Whisper_token_prev`. -/
def Whisper_token_prev (B : Backend σ P) (ctx : Ptr) : Go σ Int :=
  Go.read (CCall.whisper_token_prev ctx) fun m => Whisper_token_prev_val B m ctx

/-- Value `Whisper_token_solm` returns in memory `m`. -/
def Whisper_token_solm_val (B : Backend σ P) (m : σ) (ctx : Ptr) : Int :=
  Token (B.whisper_token_solm m ctx)

/-- The method `Whisper_token_solm`. -/
def Whisper_token_solm (B : Backend σ P) (ctx : Ptr) : Go σ Int :=
  Go.read (CCall.whisper_token_solm ctx) fun m => Whisper_token_solm_val B m ctx

/-- Value `Whisper_token_not` returns in memory `m`. -/
def Whisper_token_not_val (B : Backend σ P) (m : σ) (ctx : Ptr) : Int :=
  Token (B.whisper_token_not m ctx)

/-- The method `Whisper_token_not`. -/
def Whisper_token_not (B : Backend σ P) (ctx : Ptr) : Go σ Int :=
  Go.read (CCall.whisper_token_not ctx) fun m => Whisper_token_not_val B m ctx

/-- Value `Whisper_token_beg` returns in memory `m`. -/
def Whisper_token_beg_val (B : Backend σ P) (m : σ) (ctx : Ptr) : Int :=
  Token (B.whisper_token_beg m ctx)

/-- The method `Whisper_token_beg`. -/
def Whisper_token_beg (B : Backend σ P) (ctx : Ptr) : Go σ Int :=
  Go.read (CCall.whisper_token_beg ctx) fun m => Whisper_token_beg_val B m ctx

/-- The method `Whisper_print_timings`. -/
def Whisper_print_timings (B : Backend σ P) (ctx : Ptr) : Go σ Unit :=
  Go.update (CCall.whisper_print_timings ctx) fun m => ((), B.whisper_print_timings m ctx)

/-- The method `Whisper_reset_timings`. -/
def Whisper_reset_timings (B : Backend σ P) (ctx : Ptr) : Go σ Unit :=
  Go.update (CCall.whisper_reset_timings ctx) fun m => ((), B.whisper_reset_timings m ctx)

/-- Status the C pipeline returns for this call, and the memory it leaves. -/
def Whisper_full_with_state_run (B : Backend σ P) (m : σ) (ctx state : Ptr) (params : P)
    (samples : List float32) : Int × σ :=
  let r := B.whisper_full_with_state m ctx state params samples (C_int samples.length)
  (C_int r.1, r.2)

/-- The method `Whisper_full_with_state`.  The arguments are evaluated before the
call: `&samples[0]` indexes the slice, which panics when it is empty. -/
def Whisper_full_with_state (B : Backend σ P) (ctx state : Ptr) (params : P)
    (samples : List float32) : Go σ (Option Error) := do
  if samples.length = 0 then
    Go.throw (Panic.indexOutOfRange 0 0)
  else
    let status ← Go.update (CCall.whisper_full_with_state ctx state (C_int samples.length))
      fun m => Whisper_full_with_state_run B m ctx state params samples
    if status = 0 then
      return none
    else
      return some Error.ErrConversionFailed

/-- Value `Whisper_full_n_segments` returns in memory `m`. -/
def Whisper_full_n_segments_val (B : Backend σ P) (m : σ) (state : Ptr) : Int :=
  C_int (B.whisper_full_n_segments_from_state m state)

/-- The method `Whisper_full_n_segments`. -/
def Whisper_full_n_segments (B : Backend σ P) (state : Ptr) : Go σ Int :=
  Go.read (CCall.whisper_full_n_segments_from_state state)
    fun m => Whisper_full_n_segments_val B m state

/-- Value `Whisper_full_get_segment_t0` returns in memory `m`. -/
def Whisper_full_get_segment_t0_val (B : Backend σ P) (m : σ) (state : Ptr) (segment : Int) : Int :=
  int64 (B.whisper_full_get_segment_t0_from_state m state (C_int segment))

/-- The method `Whisper_full_get_segment_t0`. -/
def Whisper_full_get_segment_t0 (B : Backend σ P) (state : Ptr) (segment : Int) : Go σ Int :=
  Go.read (CCall.whisper_full_get_segment_t0_from_state state (C_int segment))
    fun m => Whisper_full_get_segment_t0_val B m state segment

/-- Value `Whisper_full_get_segment_t1` returns in memory `m`. -/
def Whisper_full_get_segment_t1_val (B : Backend σ P) (m : σ) (state : Ptr) (segment : Int) : Int :=
  int64 (B.whisper_full_get_segment_t1_from_state m state (C_int segment))

/-- The method `Whisper_full_get_segment_t1`. -/
def Whisper_full_get_segment_t1 (B : Backend σ P) (state : Ptr) (segment : Int) : Go σ Int :=
  Go.read (CCall.whisper_full_get_segment_t1_from_state state (C_int segment))
    fun m => Whisper_full_get_segment_t1_val B m state segment

/-- Value `Whisper_full_get_segment_text` returns in memory `m`. -/
def Whisper_full_get_segment_text_val (B : Backend σ P) (m : σ) (state : Ptr) (segment : Int) :
    String :=
  B.whisper_full_get_segment_text_from_state m state (C_int segment)

/-- The method `Whisper_full_get_segment_text`. -/
def Whisper_full_get_segment_text (B : Backend σ P) (state : Ptr) (segment : Int) : Go σ String :=
  Go.read (CCall.whisper_full_get_segment_text_from_state state (C_int segment))
    fun m => Whisper_full_get_segment_text_val B m state segment

/-- Value `Whisper_full_n_tokens` returns in memory `m`. -/
def Whisper_full_n_tokens_val (B : Backend σ P) (m : σ) (state : Ptr) (segment : Int) : Int :=
  C_int (B.whisper_full_n_tokens_from_state m state (C_int segment))

/-- The method `Whisper_full_n_tokens`. -/
def Whisper_full_n_tokens (B : Backend σ P) (state : Ptr) (segment : Int) : Go σ Int :=
  Go.read (CCall.whisper_full_n_tokens_from_state state (C_int segment))
    fun m => Whisper_full_n_tokens_val B m state segment

/-- Value `Whisper_full_get_token_text` returns in memory `m`. -/
def Whisper_full_get_token_text_val (B : Backend σ P) (m : σ) (state ctx : Ptr)
    (segment token : Int) : String :=
  B.whisper_full_get_token_text_from_state m ctx state (C_int segment) (C_int token)

/-- The method `Whisper_full_get_token_text`. -/
def Whisper_full_get_token_text (B : Backend σ P) (state ctx : Ptr) (segment token : Int) :
    Go σ String :=
  Go.read (CCall.whisper_full_get_token_text_from_state ctx state (C_int segment) (C_int token))
    fun m => Whisper_full_get_token_text_val B m state ctx segment token

/-- Value `Whisper_full_get_token_id` returns in memory `m`. -/
def Whisper_full_get_token_id_val (B : Backend σ P) (m : σ) (state : Ptr) (segment token : Int) :
    Int :=
  Token (B.whisper_full_get_token_id_from_state m state (C_int segment) (C_int token))

/-- The method `Whisper_full_get_token_id`. -/
def Whisper_full_get_token_id (B : Backend σ P) (state : Ptr) (segment token : Int) : Go σ Int :=
  Go.read (CCall.whisper_full_get_token_id_from_state state (C_int segment) (C_int token))
    fun m => Whisper_full_get_token_id_val B m state segment token

/-- Value `Whisper_full_get_token_data` returns in memory `m`. -/
def Whisper_full_get_token_data_val (B : Backend σ P) (m : σ) (state : Ptr)
    (segment token : Int) : TokenData :=
  B.whisper_full_get_token_data_from_state m state (C_int segment) (C_int token)

/-- The method `Whisper_full_get_token_data`. -/
def Whisper_full_get_token_data (B : Backend σ P) (state : Ptr) (segment token : Int) :
    Go σ TokenData :=
  Go.read (CCall.whisper_full_get_token_data_from_state state (C_int segment) (C_int token))
    fun m => Whisper_full_get_token_data_val B m state segment token

/-- Value `Whisper_full_get_token_p` returns in memory `m`. -/
def Whisper_full_get_token_p_val (B : Backend σ P) (m : σ) (state : Ptr) (segment token : Int) :
    float32 :=
  B.whisper_full_get_token_p_from_state m state (C_int segment) (C_int token)

/-- The method `Whisper_full_get_token_p`. -/
def Whisper_full_get_token_p (B : Backend σ P) (state : Ptr) (segment token : Int) :
    Go σ float32 :=
  Go.read (CCall.whisper_full_get_token_p_from_state state (C_int segment) (C_int token))
    fun m => Whisper_full_get_token_p_val B m state segment token

/-- The method `T0` of `TokenData`. -/
def TokenData.T0 (t : TokenData) : Int := int64 t.t0

/-- The method `T1` of `TokenData`. -/
def TokenData.T1 (t : TokenData) : Int := int64 t.t1

end whisper

/-! ## Go standard library: `unicode`, `strings`, `time` -/

/-- The function `unicode.IsSpace`: the Latin-1 spaces and the characters with the
Unicode property White_Space. -/
def unicode_IsSpace (c : Char) : Bool :=
  c = '\t' || c = '\n' || c.val = 0x0B || c.val = 0x0C || c = '\r' || c = ' ' ||
  c.val = 0x85 || c.val = 0xA0 || c.val = 0x1680 || (0x2000 ≤ c.val && c.val ≤ 0x200A) ||
  c.val = 0x2028 || c.val = 0x2029 || c.val = 0x202F || c.val = 0x205F || c.val = 0x3000

/-- The function `strings.TrimSpace`: the string without its leading and trailing
white space. -/
def strings_TrimSpace (s : String) : String :=
  String.mk ((s.toList.dropWhile unicode_IsSpace).rdropWhile unicode_IsSpace)

/-- The Go type `time.Duration`: a signed 64-bit count of nanoseconds. -/
abbrev Duration := Int

/-- The constant `time.Millisecond`. -/
def Millisecond : Duration := 1000000

/-- Multiplication of two `Duration` values: 64-bit, wrapping. -/
def Duration.mul (a b : Duration) : Duration := wrap64 (a * b)

/-- The method `Milliseconds`: integer division, truncated toward zero. -/
def Duration.Milliseconds (d : Duration) : Int := Int.tdiv d 1000000

/-! ## Package `whisper` (bindings/go/pkg/whisper/context.go) -/

namespace pkg

open whisper

/-- The struct `Token` of the high-level package; `Id` is a Go `int`, which has
64 bits on the platforms the bindings link for (`-L/usr/local/cuda/lib64`). -/
structure Token where
  Id : Int
  Text : String
  P : float32
  Start : Duration
  End : Duration
deriving DecidableEq, Repr

/-- The struct `Segment` of the high-level package. -/
structure Segment where
  Num : Int
  Text : String
  Start : Duration
  End : Duration
  Tokens : List Token
deriving DecidableEq, Repr

/-- The struct `model` as `context.go` uses it: the handle of the loaded model,
nil once the model has been released. -/
structure model where
  ctx : Ptr
deriving DecidableEq, Repr

/-- The struct `context`. -/
structure context (P : Type) where
  n : Int
  model : model
  params : P
deriving DecidableEq, Repr

/-- The struct `state`. -/
structure state where
  st : Ptr
deriving DecidableEq, Repr

variable {σ P : Type}

/-- Modelled from the spec: `model.IsMultilingual` (`model.go` is not among the
sources), "whether multilingual", a read-only fact of the Model: what the binding
`Whisper_is_multilingual` reports for the model's handle is non-zero. -/
def model.IsMultilingual (B : Backend σ P) (model : model) : Go σ Bool := do
  let v ← Whisper_is_multilingual B model.ctx
  return decide (v ≠ 0)

/-- The method `Close` of `*state`.  The field `st` is left as it is. -/
def state.Close (B : Backend σ P) (s : state) : Go σ (Option Error) := do
  if s.st ≠ nil then
    State.Close B s.st
  else
    return none

/-- The method `NewState`. -/
def context.NewState (B : Backend σ P) (c : context P) : Go σ state := do
  let st ← Whisper_init_state B c.model.ctx
  return { st := st }

/-- The method `SetLanguage`; it returns the error together with the context as
the call leaves it. -/
def context.SetLanguage (B : Backend σ P) (O : ParamsOps P) (c : context P)
    (lang : String) : Go σ (Option Error × context P) := do
  if c.model.ctx = nil then
    return (some Error.ErrInternalAppError, c)
  if !(← c.model.IsMultilingual B) then
    return (some Error.ErrModelNotMultilingual, c)
  if lang = "auto" then
    return (none, { c with params := (O.SetLanguage c.params (-1)).1 })
  else
    let id ← Whisper_lang_id B c.model.ctx lang
    if id < 0 then
      return (some Error.ErrUnsupportedLanguage, c)
    else
      match O.SetLanguage c.params id with
      | (params, some err) => return (some err, { c with params := params })
      | (params, none) => return (none, { c with params := params })

/-- The method `IsMultilingual` of `*context`. -/
def context.IsMultilingual (B : Backend σ P) (c : context P) : Go σ Bool :=
  c.model.IsMultilingual B

/-- The method `Language`. -/
def context.Language (B : Backend σ P) (O : ParamsOps P) (c : context P) : Go σ String := do
  let id := O.Language c.params
  if id = -1 then
    return "auto"
  else
    Whisper_lang_str B (O.Language c.params)

/-- The method `ResetTimings`. -/
def context.ResetTimings (B : Backend σ P) (c : context P) : Go σ Unit :=
  Whisper_reset_timings B c.model.ctx

/-- The method `PrintTimings`. -/
def context.PrintTimings (B : Backend σ P) (c : context P) : Go σ Unit :=
  Whisper_print_timings B c.model.ctx

/-- The zero value of `Token`. -/
def Token.zero : Token := { Id := 0, Text := "", P := ⟨0⟩, Start := 0, End := 0 }

/-- The zero value of `Segment`. -/
def Segment.zero : Segment := { Num := 0, Text := "", Start := 0, End := 0, Tokens := [] }

/-- The expression `time.Duration(x) * time.Millisecond * 10`. -/
def ticks (x : Int) : Duration := Duration.mul (Duration.mul x Millisecond) 10

/-- The loop of `toTokens`, entered with `fuel = len(result)`: one iteration
per unit of fuel while `i < len(result)`. -/
def toTokens.loop (B : Backend σ P) (ctx state : Ptr) (n : Int) :
    Nat → Nat → List Token → Go σ (List Token)
  | 0, _, result => pure result
  | fuel + 1, i, result =>
    if i < result.length then do
      let data ← Whisper_full_get_token_data B state n i
      let id ← Whisper_full_get_token_id B state n i
      let text ← Whisper_full_get_token_text B state ctx n i
      let p ← Whisper_full_get_token_p B state n i
      toTokens.loop B ctx state n fuel (i + 1)
        (result.set i { Id := id, Text := text, P := p, Start := ticks data.T0, End := ticks data.T1 })
    else
      pure result

/-- The function `toTokens`; `make` panics on a negative length. -/
def toTokens (B : Backend σ P) (ctx state : Ptr) (n : Int) : Go σ (List Token) := do
  let len ← Whisper_full_n_tokens B state n
  if len < 0 then
    Go.throw (Panic.makeLenOutOfRange len)
  else
    toTokens.loop B ctx state n len.toNat 0 (List.replicate len.toNat Token.zero)

/-- The function `toSegment`; the fields are evaluated in the order written. -/
def toSegment (B : Backend σ P) (ctx state : Ptr) (n : Int) : Go σ Segment := do
  let text ← Whisper_full_get_segment_text B state n
  let t0 ← Whisper_full_get_segment_t0 B state n
  let t1 ← Whisper_full_get_segment_t1 B state n
  let tokens ← toTokens B ctx state n
  return { Num := n, Text := strings_TrimSpace text, Start := ticks t0, End := ticks t1,
           Tokens := tokens }

/-- The loop of `Process`, entered with `fuel = num_segments`; storing to
`segments[i]` is bounds-checked. -/
def context.Process.loop (B : Backend σ P) (ctx state : Ptr) (num_segments : Int) :
    Nat → Nat → List Segment → Go σ (List Segment)
  | 0, _, segments => pure segments
  | fuel + 1, i, segments =>
    if (i : Int) < num_segments then do
      let seg ← toSegment B ctx state i
      if i < segments.length then
        context.Process.loop B ctx state num_segments fuel (i + 1) (segments.set i seg)
      else
        Go.throw (Panic.indexOutOfRange i segments.length)
    else
      pure segments

/-- The method `Process`.  The argument `s` is the `*state` behind the interface
value; the result pairs the slice (`none` for a nil slice) with the error. -/
def context.Process (B : Backend σ P) (c : context P) (s : state) (data : List float32) :
    Go σ (Option (List Segment) × Option Error) := do
  if c.model.ctx = nil then
    return (none, some Error.ErrInternalAppError)
  match ← Whisper_full_with_state B c.model.ctx s.st c.params data with
  | some err => return (none, some err)
  | none =>
    let num_segments ← Whisper_full_n_segments B s.st
    if num_segments < 0 then
      Go.throw (Panic.makeLenOutOfRange num_segments)
    else
      let segments ← context.Process.loop B c.model.ctx s.st num_segments
        num_segments.toNat 0 (List.replicate num_segments.toNat Segment.zero)
      return (some segments, none)

/-- The method `IsBEG`. -/
def context.IsBEG (B : Backend σ P) (c : context P) (t : Token) : Go σ Bool := do
  let beg ← Whisper_token_beg B c.model.ctx
  pure (decide (whisper.Token t.Id = beg))

/-- The method `IsSOT`. -/
def context.IsSOT (B : Backend σ P) (c : context P) (t : Token) : Go σ Bool := do
  let sot ← Whisper_token_sot B c.model.ctx
  pure (decide (whisper.Token t.Id = sot))

/-- The method `IsEOT`. -/
def context.IsEOT (B : Backend σ P) (c : context P) (t : Token) : Go σ Bool := do
  let eot ← Whisper_token_eot B c.model.ctx
  pure (decide (whisper.Token t.Id = eot))

/-- The method `IsPREV`. -/
def context.IsPREV (B : Backend σ P) (c : context P) (t : Token) : Go σ Bool := do
  let prev ← Whisper_token_prev B c.model.ctx
  pure (decide (whisper.Token t.Id = prev))

/-- The method `IsSOLM`. -/
def context.IsSOLM (B : Backend σ P) (c : context P) (t : Token) : Go σ Bool := do
  let solm ← Whisper_token_solm B c.model.ctx
  pure (decide (whisper.Token t.Id = solm))

/-- The method `IsNOT`. -/
def context.IsNOT (B : Backend σ P) (c : context P) (t : Token) : Go σ Bool := do
  let not ← Whisper_token_not B c.model.ctx
  pure (decide (whisper.Token t.Id = not))

/-- The method `IsText`: the cases of the `switch` are tried from the top and the
first that holds decides. -/
def context.IsText (B : Backend σ P) (c : context P) (t : Token) : Go σ Bool := do
  if ← c.IsBEG B t then
    return false
  if ← c.IsSOT B t then
    return false
  let eot ← Whisper_token_eot B c.model.ctx
  if whisper.Token t.Id ≥ eot then
    return false
  if ← c.IsPREV B t then
    return false
  if ← c.IsSOLM B t then
    return false
  if ← c.IsNOT B t then
    return false
  return true

/-- The token that `toTokens` stores at index `i` for segment `n` when the
library's memory is `m`: what the bindings return for token `i` of segment `n`. -/
def tokenAt (B : Backend σ P) (m : σ) (ctx state : Ptr) (n : Int) (i : Nat) : Token :=
  { Id := Whisper_full_get_token_id_val B m state n i,
    Text := Whisper_full_get_token_text_val B m state ctx n i,
    P := Whisper_full_get_token_p_val B m state n i,
    Start := ticks (Whisper_full_get_token_data_val B m state n i).T0,
    End := ticks (Whisper_full_get_token_data_val B m state n i).T1 }

/-- The segment that `toSegment` returns for index `i` when the library's memory
is `m`: what the bindings return for segment `i`, with one token per index below
the token count. -/
def segmentAt (B : Backend σ P) (m : σ) (ctx state : Ptr) (i : Nat) : Segment :=
  { Num := i,
    Text := strings_TrimSpace (Whisper_full_get_segment_text_val B m state i),
    Start := ticks (Whisper_full_get_segment_t0_val B m state i),
    End := ticks (Whisper_full_get_segment_t1_val B m state i),
    Tokens := (List.range (Whisper_full_n_tokens_val B m state i).toNat).map
      (tokenAt B m ctx state i) }

/-- The ticks `x` for which `time.Duration(x) * time.Millisecond * 10` does not
overflow a signed 64-bit integer: `|x| * 10^7 < 2^63`. -/
def TickInRange (x : Int) : Prop := -922337203685 ≤ x ∧ x ≤ 922337203685

instance (x : Int) : Decidable (TickInRange x) := by unfold TickInRange; infer_instance

/-- The timing property of a returned slice: the segments are ordered by
non-decreasing `Start`, and every token of every segment has `Start ≤ End`, both
within `[segment.Start, segment.End]`. -/
def WellTimed (segs : List Segment) : Prop :=
  segs.Pairwise (fun a b => a.Start ≤ b.Start) ∧
  ∀ seg ∈ segs, ∀ tok ∈ seg.Tokens,
    tok.Start ≤ tok.End ∧
    seg.Start ≤ tok.Start ∧ tok.Start ≤ seg.End ∧
    seg.Start ≤ tok.End ∧ tok.End ≤ seg.End

instance (segs : List Segment) : Decidable (WellTimed segs) := by unfold WellTimed; infer_instance

/-- The same timing property of the ticks the library holds for a state in
memory `m`: all ticks are in the range that does not overflow, the segments'
`t0` are non-decreasing, and every token's `t0 ≤ t1` lie within its segment's
`[t0, t1]`. -/
def TicksWellTimed (B : Backend σ P) (m : σ) (state : Ptr) : Prop :=
  (List.range (Whisper_full_n_segments_val B m state).toNat).Pairwise
    (fun (i j : Nat) => Whisper_full_get_segment_t0_val B m state i
      ≤ Whisper_full_get_segment_t0_val B m state j) ∧
  ∀ i : Nat, i ∈ List.range (Whisper_full_n_segments_val B m state).toNat →
    TickInRange (Whisper_full_get_segment_t0_val B m state i) ∧
    TickInRange (Whisper_full_get_segment_t1_val B m state i) ∧
    ∀ j : Nat, j ∈ List.range (Whisper_full_n_tokens_val B m state i).toNat →
      TickInRange (Whisper_full_get_token_data_val B m state i j).T0 ∧
      TickInRange (Whisper_full_get_token_data_val B m state i j).T1 ∧
      (Whisper_full_get_token_data_val B m state i j).T0
        ≤ (Whisper_full_get_token_data_val B m state i j).T1 ∧
      Whisper_full_get_segment_t0_val B m state i
        ≤ (Whisper_full_get_token_data_val B m state i j).T0 ∧
      (Whisper_full_get_token_data_val B m state i j).T1
        ≤ Whisper_full_get_segment_t1_val B m state i

end pkg

/-! ## Package `main` (bindings/go/examples/go-whisper/process.go) -/

namespace main

open whisper pkg

variable {σ P : Type}

/-- A buffered `chan string`: its capacity and the values waiting in it. -/
structure Chan where
  cap : Nat
  buf : List String
deriving DecidableEq, Repr

/-- Send on a channel.  No other goroutine runs, so a send on a full channel
blocks for ever. -/
def Chan.send (ch : Chan) (v : String) : Go σ Chan :=
  if ch.buf.length < ch.cap then
    pure { ch with buf := ch.buf ++ [v] }
  else
    Go.throw Panic.deadlock

/-- Receive from a channel.  No other goroutine runs, so a receive on an empty
channel blocks for ever. -/
def Chan.recv (ch : Chan) : Go σ (String × Chan) :=
  match ch.buf with
  | [] => Go.throw Panic.deadlock
  | v :: rest => pure (v, { ch with buf := rest })

/-- The first loop of `Process` (lines 58-75), entered with `fuel = n`.  The body
that runs the transcription is commented out in the source: what is executed
is `NewState` and one send.  `Sprintf i s data` is the text of
`fmt.Sprintf("%p %p", state, data)` in iteration `i`: it shows addresses the Go
runtime chooses, so it is a parameter. -/
def Process.spawn (B : Backend σ P) (Sprintf : Nat → state → List float32 → String)
    (c : context P) (data : List float32) (n : Int) : Nat → Nat → Chan → Go σ Chan
  | 0, _, quit => pure quit
  | fuel + 1, i, quit =>
    if (i : Int) < n then do
      let state ← c.NewState B
      let quit ← quit.send (Sprintf i state data)
      Process.spawn B Sprintf c data n fuel (i + 1) quit
    else
      pure quit

/-- The second loop of `Process` (lines 77-79), entered with `fuel = n`: the lines
printed so far are `out`. -/
def Process.collect (n : Int) : Nat → Nat → Chan → List String → Go σ (List String)
  | 0, _, _, out => pure out
  | fuel + 1, i, quit, out =>
    if (i : Int) < n then do
      let (v, quit) ← quit.recv
      Process.collect n fuel (i + 1) quit (out ++ [v])
    else
      pure out

/-- Lines 54-85 of `Process`, for `n` the value of the flag `states` and `data`
the decoded buffer: the result is the lines printed by the second loop and the
returned error.  `make(chan string, n)` panics on a negative `n`. -/
def Process (B : Backend σ P) (Sprintf : Nat → state → List float32 → String)
    (c : context P) (data : List float32) (n : Int) : Go σ (List String × Option Error) := do
  if n < 0 then
    Go.throw (Panic.makeLenOutOfRange n)
  else
    let quit : Chan := { cap := n.toNat, buf := [] }
    c.ResetTimings B
    let quit ← Process.spawn B Sprintf c data n n.toNat 0 quit
    let out ← Process.collect n n.toNat 0 quit []
    c.PrintTimings B
    return (out, none)

end main

/-! ## Concrete data for the examples -/

namespace Example

open whisper pkg

/-- One token of a decoding result. -/
structure RawToken where
  id : Int
  text : String
  p : float32
  t0 : Int
  t1 : Int
deriving DecidableEq, Repr

/-- One segment of a decoding result. -/
structure RawSegment where
  t0 : Int
  t1 : Int
  text : String
  tokens : List RawToken
deriving DecidableEq, Repr

/-- A small C memory: one model, one result buffer shared by every state. -/
structure Mem where
  /-- What `whisper_is_multilingual` reports. -/
  multilingual : Int
  /-- Status of the next pipeline run. -/
  status : Int
  /-- What a successful pipeline run writes into the result buffer. -/
  output : List RawSegment
  /-- The result buffer. -/
  segments : List RawSegment
  /-- Address of the next state to allocate. -/
  next : Ptr
  /-- The states freed so far, oldest first. -/
  freed : List Ptr
deriving DecidableEq, Repr

/-- Modelled from the spec: the Decoding Parameters (`params.go` is not among the
sources), of which only the language selector matters here: "language selector
(`auto` = -1, or a valid language id)". -/
structure Params where
  language : Int
  threads : Int
  translate : Bool
deriving DecidableEq, Repr

/-- The language table of the examples. -/
def lang_id (lang : String) : Int :=
  if lang = "en" ∨ lang = "english" then 0
  else if lang = "zh" ∨ lang = "chinese" then 1
  else if lang = "de" ∨ lang = "german" then 2
  else -1

/-- The short names of the language table. -/
def lang_str (id : Int) : Option String :=
  if id = 0 then some "en" else if id = 1 then some "zh" else if id = 2 then some "de" else none

/-- Modelled from the spec: the methods of the Decoding Parameters.  "language
id, if not `auto`, must be a valid id": `SetLanguage` stores `-1` or a valid id
and refuses any other with `ErrInvalidLanguage`; `Language` reads the selector. -/
def paramsOps : ParamsOps Params where
  SetLanguage p id :=
    if id = -1 then ({ p with language := -1 }, none)
    else if (lang_str id).isSome then ({ p with language := id }, none)
    else (p, some Error.ErrInvalidLanguage)
  Language p := p.language

/-- Segment `i` of the result buffer (an empty segment outside it). -/
def Mem.segment (m : Mem) (i : Int) : RawSegment :=
  if i < 0 then ⟨0, 0, "", []⟩ else m.segments.getD i.toNat ⟨0, 0, "", []⟩

/-- Token `j` of segment `i` of the result buffer (an empty token outside it). -/
def Mem.token (m : Mem) (i j : Int) : RawToken :=
  if j < 0 then ⟨0, "", ⟨0⟩, 0, 0⟩ else (m.segment i).tokens.getD j.toNat ⟨0, "", ⟨0⟩, 0, 0⟩

/-- A C library over `Mem`, with the special token ids of the multilingual models. -/
def backend : Backend Mem Params where
  whisper_init_state m _ := (m.next, { m with next := m.next + 1 })
  whisper_free_state m st := { m with freed := m.freed ++ [st] }
  whisper_lang_id := lang_id
  whisper_lang_str := lang_str
  whisper_is_multilingual m _ := m.multilingual
  whisper_token_eot _ _ := 50257
  whisper_token_sot _ _ := 50258
  whisper_token_prev _ _ := 50361
  whisper_token_solm _ _ := 50362
  whisper_token_not _ _ := 50363
  whisper_token_beg _ _ := 50364
  whisper_print_timings m _ := m
  whisper_reset_timings m _ := m
  whisper_full_with_state m _ _ _ _ _ :=
    if m.status = 0 then (0, { m with segments := m.output }) else (m.status, m)
  whisper_full_n_segments_from_state m _ := m.segments.length
  whisper_full_get_segment_t0_from_state m _ i := (m.segment i).t0
  whisper_full_get_segment_t1_from_state m _ i := (m.segment i).t1
  whisper_full_get_segment_text_from_state m _ i := (m.segment i).text
  whisper_full_n_tokens_from_state m _ i := (m.segment i).tokens.length
  whisper_full_get_token_text_from_state m _ _ i j := (m.token i j).text
  whisper_full_get_token_id_from_state m _ i j := (m.token i j).id
  whisper_full_get_token_data_from_state m _ i j :=
    { id := (m.token i j).id, t0 := (m.token i j).t0, t1 := (m.token i j).t1 }
  whisper_full_get_token_p_from_state m _ i j := (m.token i j).p

/-- A transcription of one segment, " Hello world." from tick 0 to tick 250,
with its three tokens. -/
def hello : List RawSegment :=
  [{ t0 := 0, t1 := 250, text := " Hello world.",
     tokens := [⟨50364, "[_BEG_]", ⟨1065353216⟩, 0, 0⟩, ⟨2425, " Hello", ⟨1061997773⟩, 0, 120⟩,
                ⟨1002, " world.", ⟨1060320051⟩, 120, 250⟩] }]

/-- A memory holding a multilingual model whose next run succeeds with `output`. -/
def mem (output : List RawSegment) : Mem :=
  { multilingual := 1, status := 0, output := output, segments := [], next := 4096, freed := [] }

/-- A world over `mem` in which no call has been made. -/
def world (output : List RawSegment) : World Mem := { mem := mem output, calls := [] }

/-- A context on a loaded model (handle `64`), language `en`. -/
def ctx : context Params :=
  { n := 0, model := { ctx := 64 }, params := { language := 0, threads := 4, translate := false } }

/-- A context whose model has been released. -/
def released : context Params := { ctx with model := { ctx := nil } }

/-- The transcription `hello` with white space on both sides of the segment
text: a tab and a space in front, a space, a no-break space and a line feed
behind. -/
def padded : List RawSegment :=
  [{ t0 := 0, t1 := 250, text := "\t Hello world. \u00a0\n",
     tokens := [⟨50364, "[_BEG_]", ⟨1065353216⟩, 0, 0⟩, ⟨2425, " Hello", ⟨1061997773⟩, 0, 120⟩,
                ⟨1002, " world.", ⟨1060320051⟩, 120, 250⟩] }]

/-- A world whose result buffer already holds `segments`. -/
def decoded (segments : List RawSegment) : World Mem :=
  { mem := { mem segments with segments := segments }, calls := [] }

/-- A segment starting at tick 922337203686, the first tick whose duration in
nanoseconds exceeds a signed 64-bit integer. -/
def far : List RawSegment :=
  [{ t0 := 922337203686, t1 := 922337203686, text := "", tokens := [] }]

/-- The transcription `hello` with tokens that carry no timestamp: their ticks
are `-1`. -/
def untimed : List RawSegment :=
  [{ t0 := 0, t1 := 250, text := " Hello world.",
     tokens := [⟨50364, "[_BEG_]", ⟨1065353216⟩, -1, -1⟩, ⟨2425, " Hello", ⟨1061997773⟩, -1, -1⟩,
                ⟨1002, " world.", ⟨1060320051⟩, -1, -1⟩] }]

/-- A world in which the next pipeline run fails with status 1. -/
def failing : World Mem := { mem := { mem hello with status := 1 }, calls := [] }

/-- A world holding an English-only model: `whisper_is_multilingual` reports 0. -/
def monolingual : World Mem := { mem := { mem [] with multilingual := 0 }, calls := [] }

end Example

/-! ## Properties of computations used in the statements -/

/-- The white space of Unicode, by code point: the characters with the property
White_Space (tab to carriage return, space, NEL, no-break space, Ogham space
mark, the spaces U+2000 to U+200A, line and paragraph separator, narrow
no-break space, medium mathematical space, ideographic space). -/
def WhiteSpace (c : Char) : Prop :=
  c.toNat ∈ [0x09, 0x0A, 0x0B, 0x0C, 0x0D, 0x20, 0x85, 0xA0, 0x1680,
    0x2000, 0x2001, 0x2002, 0x2003, 0x2004, 0x2005, 0x2006, 0x2007, 0x2008, 0x2009, 0x200A,
    0x2028, 0x2029, 0x202F, 0x205F, 0x3000]

instance (c : Char) : Decidable (WhiteSpace c) := by unfold WhiteSpace; infer_instance

/-- The text `t` is the text `s` with its leading and trailing white space
removed: `s` is a run of white space, then `t`, then a run of white space, and
`t` neither starts nor ends with white space. -/
def TrimmedOf (s t : String) : Prop :=
  ∃ pre suf : List Char, s.toList = pre ++ t.toList ++ suf ∧
    (∀ c ∈ pre, WhiteSpace c) ∧ (∀ c ∈ suf, WhiteSpace c) ∧
    (∀ c, t.toList.head? = some c → ¬ WhiteSpace c) ∧
    (∀ c, t.toList.getLast? = some c → ¬ WhiteSpace c)

/-- A computation only appends to the call log: whatever the world, the log it
leaves is the log it found followed by the calls it made. -/
def Go.Appends {σ α : Type} (x : Go σ α) : Prop :=
  ∀ w : World σ, ∃ rest, (x w).2.calls = w.calls ++ rest

/-! ## Lemmas on machine integers and on sequencing -/

theorem wrap32_of_InInt32 {x : Int} (h : InInt32 x) : wrap32 x = x := by
  unfold InInt32 at h
  unfold wrap32
  omega

theorem wrap32_InInt32 (x : Int) : InInt32 (wrap32 x) := by
  unfold InInt32 wrap32
  omega

theorem wrap64_of_InInt64 {x : Int} (h : InInt64 x) : wrap64 x = x := by
  unfold InInt64 at h
  unfold wrap64
  omega

theorem wrap64_InInt64 (x : Int) : InInt64 (wrap64 x) := by
  unfold InInt64 wrap64
  omega

namespace Go

variable {σ α β γ : Type}

theorem andThen_ret (a : α) (f : α → Go σ β) : Go.andThen (Go.ret a) f = f a := rfl

theorem andThen_throw (p : Panic) (f : α → Go σ β) :
    Go.andThen (Go.throw p) f = Go.throw p := rfl

theorem andThen_read (c : CCall) (v : σ → α) (f : α → Go σ β) (w : World σ) :
    Go.andThen (Go.read c v) f w = f (v w.mem) { mem := w.mem, calls := w.calls ++ [c] } := rfl

theorem andThen_update (c : CCall) (g : σ → α × σ) (f : α → Go σ β) (w : World σ) :
    Go.andThen (Go.update c g) f w
      = f (g w.mem).1 { mem := (g w.mem).2, calls := w.calls ++ [c] } := rfl

theorem andThen_assoc (x : Go σ α) (f : α → Go σ β) (g : β → Go σ γ) :
    Go.andThen (Go.andThen x f) g = Go.andThen x (fun a => Go.andThen (f a) g) := by
  funext w
  simp only [Go.andThen]
  cases h : x w with
  | mk r w1 => cases r <;> simp

theorem andThen_of_ret {x : Go σ α} {w w1 : World σ} {a : α} (h : x w = (Result.ret a, w1))
    (f : α → Go σ β) : Go.andThen x f w = f a w1 := by
  simp only [Go.andThen, h]

theorem andThen_of_panic {x : Go σ α} {w w1 : World σ} {p : Panic}
    (h : x w = (Result.panic p, w1)) (f : α → Go σ β) :
    Go.andThen x f w = (Result.panic p, w1) := by
  simp only [Go.andThen, h]

theorem andThen_apply (x : Go σ α) (f : α → Go σ β) (w : World σ) :
    Go.andThen x f w =
      match (x w).1 with
      | Result.ret a => f a (x w).2
      | Result.panic p => (Result.panic p, (x w).2) := by
  simp only [Go.andThen]
  rcases x w with ⟨_ | _, _⟩ <;> rfl

theorem andThen_ret_fst (x : Go σ α) (g : α → β) (w : World σ) :
    (Go.andThen x (fun a => Go.ret (g a)) w).1 =
      match (x w).1 with
      | Result.ret a => Result.ret (g a)
      | Result.panic p => Result.panic p := by
  simp only [Go.andThen]
  rcases x w with ⟨_ | _, _⟩ <;> rfl

theorem andThen_ret_snd (x : Go σ α) (g : α → β) (w : World σ) :
    (Go.andThen x (fun a => Go.ret (g a)) w).2 = (x w).2 := by
  simp only [Go.andThen]
  rcases x w with ⟨_ | _, _⟩ <;> rfl

end Go

/-! ## Token classification (C1) -/

namespace pkg

open whisper

variable {σ P : Type}

/-- The result of `IsText` for any token: the tests of the `switch` are made on
the id converted to the 32-bit token type, and `IsText` never panics. -/
theorem IsText_eval (B : Backend σ P) (c : context P) (t : Token) (w : World σ) :
    (c.IsText B t w).1 = Result.ret (decide (
      whisper.Token t.Id ≠ Whisper_token_beg_val B w.mem c.model.ctx ∧
      whisper.Token t.Id ≠ Whisper_token_sot_val B w.mem c.model.ctx ∧
      whisper.Token t.Id < Whisper_token_eot_val B w.mem c.model.ctx ∧
      whisper.Token t.Id ≠ Whisper_token_prev_val B w.mem c.model.ctx ∧
      whisper.Token t.Id ≠ Whisper_token_solm_val B w.mem c.model.ctx ∧
      whisper.Token t.Id ≠ Whisper_token_not_val B w.mem c.model.ctx)) := by
  simp only [context.IsText, context.IsBEG, context.IsSOT, context.IsPREV, context.IsSOLM,
    context.IsNOT, Whisper_token_beg, Whisper_token_sot, Whisper_token_eot, Whisper_token_prev,
    Whisper_token_solm, Whisper_token_not, bind, pure, Go.andThen_assoc, Go.andThen_ret,
    Go.andThen_read, ite_apply, decide_eq_true_eq]
  iterate 6
    any_goals (try simp only [Go.andThen_read, ite_apply])
    any_goals (try split_ifs)
  all_goals simp only [Go.ret, Result.ret.injEq, Bool.false_eq, Bool.true_eq,
    decide_eq_false_iff_not, decide_eq_true_eq]
  all_goals first | tauto | omega

/-- The result of `IsEOT` for any token. -/
theorem IsEOT_eval (B : Backend σ P) (c : context P) (t : Token) (w : World σ) :
    (c.IsEOT B t w).1
      = Result.ret (decide (whisper.Token t.Id = Whisper_token_eot_val B w.mem c.model.ctx)) := by
  simp only [context.IsEOT, Whisper_token_eot, bind, pure, Go.andThen_read, Go.ret]

/-- C1, as stated, fails: on the multilingual model (end-of-transcription id
50257) the token with `Id = 4294967296` is classified as text, because the id is
converted to the 32-bit token type (giving 0) before it is compared, although
the id itself is not below the end-of-transcription id. -/
theorem IsText_id_beyond_int32 :
    ¬ ((Example.ctx.IsText Example.backend ⟨4294967296, "", ⟨0⟩, 0, 0⟩ (Example.world [])).1
          = Result.ret true ↔
        ((4294967296 : Int) ≠ Whisper_token_beg_val Example.backend (Example.mem []) 64 ∧
         (4294967296 : Int) ≠ Whisper_token_sot_val Example.backend (Example.mem []) 64 ∧
         (4294967296 : Int) < Whisper_token_eot_val Example.backend (Example.mem []) 64 ∧
         (4294967296 : Int) ≠ Whisper_token_prev_val Example.backend (Example.mem []) 64 ∧
         (4294967296 : Int) ≠ Whisper_token_solm_val Example.backend (Example.mem []) 64 ∧
         (4294967296 : Int) ≠ Whisper_token_not_val Example.backend (Example.mem []) 64)) := by
  decide

/-- C1 (amended): for every context and every token `t` whose id lies in the range
of the 32-bit token type, `IsText t` returns true exactly when `t.Id` is not the
begin id, not the start-of-transcription id, is strictly below the
end-of-transcription id, and is not the start-of-previous, start-of-LM or
no-timestamp id.  Consequently a token whose id equals the end-of-transcription
id has `IsEOT` true and `IsText` false, and a token whose id is strictly below
every special id is text. -/
theorem IsText_iff (B : Backend σ P) (c : context P) (t : Token) (w : World σ)
    (hid : InInt32 t.Id) :
    ((c.IsText B t w).1 = Result.ret true ↔
      (t.Id ≠ Whisper_token_beg_val B w.mem c.model.ctx ∧
       t.Id ≠ Whisper_token_sot_val B w.mem c.model.ctx ∧
       t.Id < Whisper_token_eot_val B w.mem c.model.ctx ∧
       t.Id ≠ Whisper_token_prev_val B w.mem c.model.ctx ∧
       t.Id ≠ Whisper_token_solm_val B w.mem c.model.ctx ∧
       t.Id ≠ Whisper_token_not_val B w.mem c.model.ctx)) ∧
    ((c.IsText B t w).1 = Result.ret true ∨ (c.IsText B t w).1 = Result.ret false) ∧
    (t.Id = Whisper_token_eot_val B w.mem c.model.ctx →
      (c.IsEOT B t w).1 = Result.ret true ∧ (c.IsText B t w).1 = Result.ret false) ∧
    (t.Id < Whisper_token_beg_val B w.mem c.model.ctx ∧
     t.Id < Whisper_token_sot_val B w.mem c.model.ctx ∧
     t.Id < Whisper_token_eot_val B w.mem c.model.ctx ∧
     t.Id < Whisper_token_prev_val B w.mem c.model.ctx ∧
     t.Id < Whisper_token_solm_val B w.mem c.model.ctx ∧
     t.Id < Whisper_token_not_val B w.mem c.model.ctx →
      (c.IsText B t w).1 = Result.ret true) := by
  have hconv : whisper.Token t.Id = t.Id := wrap32_of_InInt32 hid
  rw [IsText_eval, IsEOT_eval, hconv]
  refine ⟨?_, ?_, ?_, ?_⟩
  · simp only [Result.ret.injEq, decide_eq_true_eq]
  · simp only [Result.ret.injEq, decide_eq_true_eq, decide_eq_false_iff_not]
    tauto
  · intro h
    simp only [Result.ret.injEq, decide_eq_true_eq, decide_eq_false_iff_not]
    refine ⟨h, ?_⟩
    omega
  · intro h
    simp only [Result.ret.injEq, decide_eq_true_eq]
    omega

/-- C1 (amended), at a concrete input: on the multilingual model the token
" Hello" (id 2425) is text. -/
theorem IsText_iff_witness :
    (Example.ctx.IsText Example.backend ⟨2425, " Hello", ⟨0⟩, 0, 0⟩ (Example.world [])).1
      = Result.ret true :=
  ((IsText_iff Example.backend Example.ctx ⟨2425, " Hello", ⟨0⟩, 0, 0⟩ (Example.world [])
      (by decide)).2.2.2) (by decide)

end pkg

/-! ## Language selection (C2, C3, C4) -/

namespace pkg

open whisper

variable {σ P : Type}

theorem IsMultilingual_eval (B : Backend σ P) (m : model) (w : World σ) :
    m.IsMultilingual B w
      = (Result.ret (decide (Whisper_is_multilingual_val B w.mem m.ctx ≠ 0)),
          { mem := w.mem, calls := w.calls ++ [CCall.whisper_is_multilingual m.ctx] }) := by
  simp only [model.IsMultilingual, Whisper_is_multilingual, bind, pure, Go.andThen_read, Go.ret]

/-- Every path of `SetLanguage`, with the calls it makes into the library. -/
theorem SetLanguage_eval (B : Backend σ P) (O : ParamsOps P) (c : context P) (lang : String)
    (w : World σ) :
    c.SetLanguage B O lang w =
      if c.model.ctx = nil then (Result.ret (some Error.ErrInternalAppError, c), w)
      else if Whisper_is_multilingual_val B w.mem c.model.ctx = 0 then
        (Result.ret (some Error.ErrModelNotMultilingual, c),
          { mem := w.mem, calls := w.calls ++ [CCall.whisper_is_multilingual c.model.ctx] })
      else if lang = "auto" then
        (Result.ret (none, { c with params := (O.SetLanguage c.params (-1)).1 }),
          { mem := w.mem, calls := w.calls ++ [CCall.whisper_is_multilingual c.model.ctx] })
      else if Whisper_lang_id_val B lang < 0 then
        (Result.ret (some Error.ErrUnsupportedLanguage, c),
          { mem := w.mem, calls := w.calls ++ [CCall.whisper_is_multilingual c.model.ctx]
              ++ [CCall.whisper_lang_id lang] })
      else
        (Result.ret ((O.SetLanguage c.params (Whisper_lang_id_val B lang)).2,
            { c with params := (O.SetLanguage c.params (Whisper_lang_id_val B lang)).1 }),
          { mem := w.mem, calls := w.calls ++ [CCall.whisper_is_multilingual c.model.ctx]
              ++ [CCall.whisper_lang_id lang] }) := by
  simp only [context.SetLanguage, model.IsMultilingual, Whisper_is_multilingual, Whisper_lang_id,
    bind, pure, Go.andThen_assoc, Go.andThen_ret, Go.andThen_read, ite_apply]
  by_cases h1 : c.model.ctx = nil
  · simp only [h1, if_true, Go.ret]
  simp only [h1, if_false, Go.andThen_read, ite_apply]
  by_cases h2 : Whisper_is_multilingual_val B w.mem c.model.ctx = 0
  · simp [h2, Go.ret]
  by_cases h3 : lang = "auto"
  · simp [h2, h3, Go.ret]
  by_cases h4 : Whisper_lang_id_val B lang < 0
  · simp [h2, h3, h4, Go.ret, Go.andThen_read]
  simp only [h2, h3, h4, Go.andThen_read, ite_apply, ne_eq, not_false_eq_true, decide_True,
    Bool.not_true, Bool.false_eq_true, if_false]
  rcases h : O.SetLanguage c.params (Whisper_lang_id_val B lang) with ⟨p, _ | e⟩ <;>
    simp [Go.ret]

/-- What `Language` returns depends on the parameters only, not on the world. -/
theorem Language_value (B : Backend σ P) (O : ParamsOps P) (c : context P) (w : World σ) :
    (c.Language B O w).1 = Result.ret
      (if O.Language c.params = -1 then "auto"
       else (B.whisper_lang_str (C_int (O.Language c.params))).getD "") := by
  simp only [context.Language, Whisper_lang_str, pure, ite_apply]
  split_ifs <;> rfl

/-- A model is multilingual, as `IsMultilingual` reports it, exactly when the
library's answer is non-zero. -/
theorem IsMultilingual_true_iff (B : Backend σ P) (m : model) (w : World σ) :
    (m.IsMultilingual B w).1 = Result.ret true ↔ Whisper_is_multilingual_val B w.mem m.ctx ≠ 0 := by
  rw [IsMultilingual_eval]
  simp

theorem IsMultilingual_false_iff (B : Backend σ P) (m : model) (w : World σ) :
    (m.IsMultilingual B w).1 = Result.ret false ↔ Whisper_is_multilingual_val B w.mem m.ctx = 0 := by
  rw [IsMultilingual_eval]
  simp

/-- C2, as stated, fails: on a loaded English-only model `SetLanguage("auto")`
returns `ErrModelNotMultilingual`, because the multilingual test comes before
the test for "auto". -/
theorem SetLanguage_auto_on_monolingual :
    Example.ctx.model.ctx ≠ nil ∧
    (Example.ctx.SetLanguage Example.backend Example.paramsOps "auto" Example.monolingual).1
      = Result.ret (some Error.ErrModelNotMultilingual, Example.ctx) := by
  decide

/-- C2 (amended): for every context bound to a loaded multilingual model,
`SetLanguage("auto")` succeeds: it returns no error, and the parameters are those
left by `Params.SetLanguage(-1)`. -/
theorem SetLanguage_auto (B : Backend σ P) (O : ParamsOps P) (c : context P) (w : World σ)
    (hloaded : c.model.ctx ≠ nil)
    (hmulti : (c.model.IsMultilingual B w).1 = Result.ret true) :
    (c.SetLanguage B O "auto" w).1
      = Result.ret (none, { c with params := (O.SetLanguage c.params (-1)).1 }) := by
  rw [IsMultilingual_true_iff] at hmulti
  rw [SetLanguage_eval]
  simp only [hloaded, hmulti, if_false, if_true]

/-- C2 (amended), at a concrete input: on the multilingual example model the
language `en` is replaced by `auto`. -/
theorem SetLanguage_auto_witness :
    (Example.ctx.SetLanguage Example.backend Example.paramsOps "auto" (Example.world [])).1
      = Result.ret (none, { Example.ctx with
          params := (Example.paramsOps.SetLanguage Example.ctx.params (-1)).1 }) :=
  SetLanguage_auto Example.backend Example.paramsOps Example.ctx (Example.world [])
    (by decide) (by decide)

/-- C3: for every context bound to a loaded model that is not multilingual and
every explicit language code (anything other than "auto"), `SetLanguage` returns
`ErrModelNotMultilingual`, leaves the context (hence its parameters) as it was,
and `Language()` reads after the call what it read before it. -/
theorem SetLanguage_not_multilingual (B : Backend σ P) (O : ParamsOps P) (c : context P)
    (lang : String) (w : World σ)
    (hloaded : c.model.ctx ≠ nil)
    (hmono : (c.model.IsMultilingual B w).1 = Result.ret false)
    (_hexplicit : lang ≠ "auto") :
    (c.SetLanguage B O lang w).1 = Result.ret (some Error.ErrModelNotMultilingual, c) ∧
    ∀ e c', (c.SetLanguage B O lang w).1 = Result.ret (e, c') →
      c'.params = c.params ∧
      (c'.Language B O (c.SetLanguage B O lang w).2).1 = (c.Language B O w).1 := by
  rw [IsMultilingual_false_iff] at hmono
  have h : (c.SetLanguage B O lang w).1 = Result.ret (some Error.ErrModelNotMultilingual, c) := by
    rw [SetLanguage_eval]
    simp only [hloaded, hmono, if_false, if_true]
  refine ⟨h, ?_⟩
  intro e c' h'
  rw [h] at h'
  simp only [Result.ret.injEq, Prod.mk.injEq] at h'
  obtain ⟨_, rfl⟩ := h'
  exact ⟨rfl, by rw [Language_value, Language_value]⟩

/-- C3, at a concrete input: `SetLanguage("de")` on the English-only example model. -/
theorem SetLanguage_not_multilingual_witness :
    (Example.ctx.SetLanguage Example.backend Example.paramsOps "de" Example.monolingual).1
      = Result.ret (some Error.ErrModelNotMultilingual, Example.ctx) :=
  (SetLanguage_not_multilingual Example.backend Example.paramsOps Example.ctx "de"
    Example.monolingual (by decide) (by decide) (by decide)).1

/-- C4, as stated, fails: the library's lookup does not recognise "auto" (it
returns -1), yet on a multilingual model `SetLanguage("auto")` returns no error
and replaces the configured language `en` by `auto`. -/
theorem SetLanguage_auto_is_unrecognised :
    Whisper_lang_id_val Example.backend "auto" < 0 ∧
    (Example.ctx.SetLanguage Example.backend Example.paramsOps "auto" (Example.world [])).1
      = Result.ret (none, { Example.ctx with params := { Example.ctx.params with language := -1 } }) ∧
    (Example.ctx.Language Example.backend Example.paramsOps (Example.world [])).1
      = Result.ret "en" ∧
    (context.Language Example.backend Example.paramsOps
        { Example.ctx with params := { Example.ctx.params with language := -1 } }
        (Example.world [])).1 = Result.ret "auto" := by
  decide

/-- C4 (amended): for every context bound to a loaded multilingual model and every
language code other than "auto" that the library's lookup does not recognise
(`Whisper_lang_id` returns a negative id), `SetLanguage` returns
`ErrUnsupportedLanguage`, leaves the context (hence its parameters) as it was,
and `Language()` reads after the call what it read before it. -/
theorem SetLanguage_unsupported (B : Backend σ P) (O : ParamsOps P) (c : context P)
    (lang : String) (w : World σ)
    (hloaded : c.model.ctx ≠ nil)
    (hmulti : (c.model.IsMultilingual B w).1 = Result.ret true)
    (hexplicit : lang ≠ "auto")
    (hunknown : Whisper_lang_id_val B lang < 0) :
    (c.SetLanguage B O lang w).1 = Result.ret (some Error.ErrUnsupportedLanguage, c) ∧
    ∀ e c', (c.SetLanguage B O lang w).1 = Result.ret (e, c') →
      c'.params = c.params ∧
      (c'.Language B O (c.SetLanguage B O lang w).2).1 = (c.Language B O w).1 := by
  rw [IsMultilingual_true_iff] at hmulti
  have h : (c.SetLanguage B O lang w).1 = Result.ret (some Error.ErrUnsupportedLanguage, c) := by
    rw [SetLanguage_eval]
    simp only [hloaded, hmulti, hexplicit, hunknown, if_false, if_true]
  refine ⟨h, ?_⟩
  intro e c' h'
  rw [h] at h'
  simp only [Result.ret.injEq, Prod.mk.injEq] at h'
  obtain ⟨_, rfl⟩ := h'
  exact ⟨rfl, by rw [Language_value, Language_value]⟩

/-- C4 (amended), at a concrete input: `SetLanguage("xx-not-a-real-language")` on
the multilingual example model. -/
theorem SetLanguage_unsupported_witness :
    (Example.ctx.SetLanguage Example.backend Example.paramsOps "xx-not-a-real-language"
        (Example.world [])).1
      = Result.ret (some Error.ErrUnsupportedLanguage, Example.ctx) :=
  (SetLanguage_unsupported Example.backend Example.paramsOps Example.ctx "xx-not-a-real-language"
    (Example.world []) (by decide) (by decide) (by decide) (by decide)).1

end pkg

/-! ## Process: errors and segments (C5, C6) -/

namespace pkg

open whisper

variable {σ P : Type}

theorem take_succ_set {α : Type} (l : List α) (i : Nat) (a : α) (h : i < l.length) :
    (l.set i a).take (i + 1) = l.take i ++ [a] := by
  induction l generalizing i with
  | nil => simp at h
  | cons x xs ih =>
    cases i with
    | zero => simp
    | succ k =>
      simp only [List.length_cons, Nat.add_lt_add_iff_right] at h
      simp [ih k h]

theorem toTokens_loop_eval (B : Backend σ P) (ctx state : Ptr) (n : Int) (fuel : Nat) :
    ∀ (i : Nat) (result : List Token) (w : World σ), i + fuel = result.length →
      (toTokens.loop B ctx state n fuel i result w).1
          = Result.ret (result.take i ++ (List.range' i fuel).map (tokenAt B w.mem ctx state n))
        ∧ (toTokens.loop B ctx state n fuel i result w).2.mem = w.mem := by
  induction fuel with
  | zero =>
    intro i result w h
    simp only [toTokens.loop, pure, Go.ret, List.range'_zero, List.map_nil, List.append_nil,
      and_true]
    rw [List.take_of_length_le (by omega)]
  | succ fuel ih =>
    intro i result w h
    have hi : i < result.length := by omega
    simp only [toTokens.loop, hi, if_true, bind, Whisper_full_get_token_data,
      Whisper_full_get_token_id, Whisper_full_get_token_text, Whisper_full_get_token_p,
      Go.andThen_read]
    constructor
    · rw [(ih _ _ _ (by rw [List.length_set]; omega)).1, take_succ_set _ _ _ hi]
      simp only [List.range'_succ, List.map_cons, List.append_assoc, List.singleton_append, tokenAt]
    · rw [(ih _ _ _ (by rw [List.length_set]; omega)).2]

theorem toTokens_eval (B : Backend σ P) (ctx state : Ptr) (n : Int) (w : World σ) :
    (toTokens B ctx state n w).1 =
        (if Whisper_full_n_tokens_val B w.mem state n < 0 then
          Result.panic (Panic.makeLenOutOfRange (Whisper_full_n_tokens_val B w.mem state n))
        else
          Result.ret ((List.range (Whisper_full_n_tokens_val B w.mem state n).toNat).map
            (tokenAt B w.mem ctx state n)))
      ∧ (toTokens B ctx state n w).2.mem = w.mem := by
  simp only [toTokens, Whisper_full_n_tokens, bind, Go.andThen_read, ite_apply]
  split_ifs with h
  · exact ⟨rfl, rfl⟩
  · constructor
    · rw [(toTokens_loop_eval B ctx state n _ 0 _ _ (by simp)).1]
      simp [List.range_eq_range']
    · rw [(toTokens_loop_eval B ctx state n _ 0 _ _ (by simp)).2]

theorem toSegment_eval (B : Backend σ P) (ctx state : Ptr) (i : Nat) (w : World σ) :
    (toSegment B ctx state i w).1 =
        (if Whisper_full_n_tokens_val B w.mem state i < 0 then
          Result.panic (Panic.makeLenOutOfRange (Whisper_full_n_tokens_val B w.mem state i))
        else
          Result.ret (segmentAt B w.mem ctx state i))
      ∧ (toSegment B ctx state i w).2.mem = w.mem := by
  simp only [toSegment, Whisper_full_get_segment_text, Whisper_full_get_segment_t0,
    Whisper_full_get_segment_t1, bind, pure, Go.andThen_read]
  constructor
  · rw [Go.andThen_ret_fst, (toTokens_eval B ctx state i _).1]
    split_ifs with h
    · rfl
    · rfl
  · rw [Go.andThen_ret_snd, (toTokens_eval B ctx state i _).2]

theorem Process_loop_eval (B : Backend σ P) (ctx state : Ptr) (num : Int) (fuel : Nat) :
    ∀ (i : Nat) (segments : List Segment) (w : World σ) (segs : List Segment),
      i + fuel = segments.length → segments.length = num.toNat →
      (context.Process.loop B ctx state num fuel i segments w).1 = Result.ret segs →
      segs = segments.take i ++ (List.range' i fuel).map (segmentAt B w.mem ctx state)
        ∧ (context.Process.loop B ctx state num fuel i segments w).2.mem = w.mem
        ∧ ∀ k, i ≤ k → k < i + fuel → 0 ≤ Whisper_full_n_tokens_val B w.mem state k := by
  induction fuel with
  | zero =>
    intro i segments w segs h _ hret
    simp only [context.Process.loop, pure, Go.ret, Result.ret.injEq] at hret
    subst hret
    simp only [context.Process.loop, pure, Go.ret, List.range'_zero, List.map_nil,
      List.append_nil, true_and]
    refine ⟨?_, ?_⟩
    · rw [List.take_of_length_le (by omega)]
    · intro k h1 h2
      omega
  | succ fuel ih =>
    intro i segments w segs h hn hret
    have hi : i < segments.length := by omega
    have hin : (i : Int) < num := by omega
    simp only [context.Process.loop, hin, if_true, bind] at hret ⊢
    rw [Go.andThen_apply, (toSegment_eval B ctx state i w).1] at hret
    rw [Go.andThen_apply, (toSegment_eval B ctx state i w).1]
    by_cases hneg : Whisper_full_n_tokens_val B w.mem state i < 0
    · simp only [hneg, if_true] at hret
      exact absurd hret (by simp)
    · simp only [hneg, if_false, hi, if_true] at hret ⊢
      have hlen : i + 1 + fuel = (segments.set i (segmentAt B w.mem ctx state i)).length := by
        rw [List.length_set]; omega
      have hn' : (segments.set i (segmentAt B w.mem ctx state i)).length = num.toNat := by
        rw [List.length_set]; exact hn
      obtain ⟨h1, h2, h3⟩ := ih _ _ _ segs hlen hn' hret
      rw [(toSegment_eval B ctx state i w).2] at h1 h2 h3
      refine ⟨?_, ?_, ?_⟩
      · rw [h1, take_succ_set _ _ _ hi]
        simp only [List.range'_succ, List.map_cons, List.append_assoc, List.singleton_append]
      · rw [h2]
      · intro k hk1 hk2
        by_cases hk : k = i
        · subst hk; omega
        · exact h3 k (by omega) (by omega)


/-- The world right after the pipeline call of `Process`. -/
theorem Whisper_full_with_state_eval (B : Backend σ P) (ctx state : Ptr) (params : P)
    (samples : List float32) (w : World σ) :
    Whisper_full_with_state B ctx state params samples w =
      if samples.length = 0 then (Result.panic (Panic.indexOutOfRange 0 0), w)
      else
        (Result.ret (if (Whisper_full_with_state_run B w.mem ctx state params samples).1 = 0
            then none else some Error.ErrConversionFailed),
          { mem := (Whisper_full_with_state_run B w.mem ctx state params samples).2,
            calls := w.calls ++ [CCall.whisper_full_with_state ctx state (C_int samples.length)] }) := by
  simp only [Whisper_full_with_state, bind, pure, ite_apply]
  by_cases h1 : samples.length = 0
  · simp only [h1, if_true]
    rfl
  by_cases h2 : (Whisper_full_with_state_run B w.mem ctx state params samples).1 = 0
  · simp only [h1, h2, if_false, if_true, Go.andThen_update, Go.ret]
  · simp only [h1, h2, if_false, Go.andThen_update, Go.ret]

theorem Process_eval (B : Backend σ P) (c : context P) (s : state) (data : List float32)
    (w : World σ) :
    c.Process B s data w =
      if c.model.ctx = nil then (Result.ret (none, some Error.ErrInternalAppError), w)
      else if data.length = 0 then (Result.panic (Panic.indexOutOfRange 0 0), w)
      else if (Whisper_full_with_state_run B w.mem c.model.ctx s.st c.params data).1 ≠ 0 then
        (Result.ret (none, some Error.ErrConversionFailed),
          { mem := (Whisper_full_with_state_run B w.mem c.model.ctx s.st c.params data).2,
            calls := w.calls ++ [CCall.whisper_full_with_state c.model.ctx s.st (C_int data.length)] })
      else if Whisper_full_n_segments_val B
          (Whisper_full_with_state_run B w.mem c.model.ctx s.st c.params data).2 s.st < 0 then
        (Result.panic (Panic.makeLenOutOfRange (Whisper_full_n_segments_val B
            (Whisper_full_with_state_run B w.mem c.model.ctx s.st c.params data).2 s.st)),
          { mem := (Whisper_full_with_state_run B w.mem c.model.ctx s.st c.params data).2,
            calls := w.calls ++ [CCall.whisper_full_with_state c.model.ctx s.st (C_int data.length)]
              ++ [CCall.whisper_full_n_segments_from_state s.st] })
      else
        Go.andThen
          (context.Process.loop B c.model.ctx s.st
            (Whisper_full_n_segments_val B
              (Whisper_full_with_state_run B w.mem c.model.ctx s.st c.params data).2 s.st)
            (Whisper_full_n_segments_val B
              (Whisper_full_with_state_run B w.mem c.model.ctx s.st c.params data).2 s.st).toNat 0
            (List.replicate (Whisper_full_n_segments_val B
              (Whisper_full_with_state_run B w.mem c.model.ctx s.st c.params data).2 s.st).toNat
              Segment.zero))
          (fun segments => Go.ret (some segments, none))
          { mem := (Whisper_full_with_state_run B w.mem c.model.ctx s.st c.params data).2,
            calls := w.calls ++ [CCall.whisper_full_with_state c.model.ctx s.st (C_int data.length)]
              ++ [CCall.whisper_full_n_segments_from_state s.st] } := by
  simp only [context.Process, bind, pure, ite_apply]
  by_cases h1 : c.model.ctx = nil
  · simp only [h1, if_true, Go.ret]
  simp only [h1, if_false, Go.andThen_ret]
  rw [Go.andThen_apply, Whisper_full_with_state_eval]
  by_cases h2 : data.length = 0
  · simp only [h2, if_true]
  simp only [h2, if_false]
  by_cases h3 : (Whisper_full_with_state_run B w.mem c.model.ctx s.st c.params data).1 = 0
  · simp only [h3, if_true, ne_eq, not_true_eq_false, if_false, Whisper_full_n_segments,
      Go.andThen_read, ite_apply]
    split_ifs with h4
    · rfl
    · rfl
  · simp only [h3, if_false, ne_eq, not_false_eq_true, if_true, Go.ret]


theorem getElem?_map_range {α : Type} (f : Nat → α) (n i : Nat) (a : α)
    (h : ((List.range n).map f)[i]? = some a) : i < n ∧ a = f i := by
  rw [List.getElem?_eq_some] at h
  obtain ⟨hi, ha⟩ := h
  simp only [List.length_map, List.length_range] at hi
  refine ⟨hi, ?_⟩
  rw [← ha]
  simp

/-- A successful `Process` returns the segments `0 .. n-1` of the state as the
library holds them after the pipeline call, and every token count is non-negative. -/
theorem Process_success_eval (B : Backend σ P) (c : context P) (s : state) (data : List float32)
    (w : World σ) (segs : List Segment)
    (h : (c.Process B s data w).1 = Result.ret (some segs, none)) :
    c.model.ctx ≠ nil ∧ data ≠ [] ∧
    (Whisper_full_with_state_run B w.mem c.model.ctx s.st c.params data).1 = 0 ∧
    0 ≤ Whisper_full_n_segments_val B
        (Whisper_full_with_state_run B w.mem c.model.ctx s.st c.params data).2 s.st ∧
    segs = (List.range (Whisper_full_n_segments_val B
        (Whisper_full_with_state_run B w.mem c.model.ctx s.st c.params data).2 s.st).toNat).map
          (segmentAt B (Whisper_full_with_state_run B w.mem c.model.ctx s.st c.params data).2
            c.model.ctx s.st) ∧
    ∀ k : Nat, (k : Int) < Whisper_full_n_segments_val B
        (Whisper_full_with_state_run B w.mem c.model.ctx s.st c.params data).2 s.st →
      0 ≤ Whisper_full_n_tokens_val B
        (Whisper_full_with_state_run B w.mem c.model.ctx s.st c.params data).2 s.st k := by
  rw [Process_eval] at h
  by_cases h1 : c.model.ctx = nil
  · simp [h1] at h
  by_cases h2 : data.length = 0
  · simp [h1, h2] at h
  by_cases h3 : (Whisper_full_with_state_run B w.mem c.model.ctx s.st c.params data).1 = 0
  swap
  · simp [h1, h2, h3] at h
  by_cases h4 : Whisper_full_n_segments_val B
      (Whisper_full_with_state_run B w.mem c.model.ctx s.st c.params data).2 s.st < 0
  · simp [h1, h2, h3, h4] at h
  simp only [h1, h2, h3, h4, if_false, ne_eq, not_true_eq_false] at h
  rw [Go.andThen_ret_fst] at h
  have hdata : data ≠ [] := by
    intro hd
    exact h2 (by simp [hd])
  refine ⟨h1, hdata, h3, by omega, ?_⟩
  cases hl : (context.Process.loop B c.model.ctx s.st
      (Whisper_full_n_segments_val B
        (Whisper_full_with_state_run B w.mem c.model.ctx s.st c.params data).2 s.st)
      (Whisper_full_n_segments_val B
        (Whisper_full_with_state_run B w.mem c.model.ctx s.st c.params data).2 s.st).toNat 0
      (List.replicate (Whisper_full_n_segments_val B
        (Whisper_full_with_state_run B w.mem c.model.ctx s.st c.params data).2 s.st).toNat
        Segment.zero)
      { mem := (Whisper_full_with_state_run B w.mem c.model.ctx s.st c.params data).2,
        calls := w.calls ++ [CCall.whisper_full_with_state c.model.ctx s.st (C_int data.length)]
          ++ [CCall.whisper_full_n_segments_from_state s.st] }).1 with
  | panic p =>
    rw [hl] at h
    simp at h
  | ret a =>
    rw [hl] at h
    simp only [Result.ret.injEq, Prod.mk.injEq, Option.some.injEq, and_true] at h
    subst h
    obtain ⟨e1, _, e3⟩ := Process_loop_eval B c.model.ctx s.st _ _ 0 _ _ a (by simp) (by simp) hl
    refine ⟨?_, ?_⟩
    · rw [e1]
      simp [List.range_eq_range']
    · intro k hk
      exact e3 k (by omega) (by omega)


theorem Process_loop_succeeds (B : Backend σ P) (ctx state : Ptr) (num : Int) (fuel : Nat) :
    ∀ (i : Nat) (segments : List Segment) (w : World σ),
      i + fuel = segments.length → segments.length = num.toNat →
      (∀ k, i ≤ k → k < i + fuel → 0 ≤ Whisper_full_n_tokens_val B w.mem state k) →
      (context.Process.loop B ctx state num fuel i segments w).1
          = Result.ret (segments.take i ++ (List.range' i fuel).map (segmentAt B w.mem ctx state))
        ∧ (context.Process.loop B ctx state num fuel i segments w).2.mem = w.mem := by
  induction fuel with
  | zero =>
    intro i segments w h _ _
    simp only [context.Process.loop, pure, Go.ret, List.range'_zero, List.map_nil,
      List.append_nil, and_true]
    rw [List.take_of_length_le (by omega)]
  | succ fuel ih =>
    intro i segments w h hn hpos
    have hi : i < segments.length := by omega
    have hin : (i : Int) < num := by omega
    have hnn : ¬ Whisper_full_n_tokens_val B w.mem state i < 0 := by
      have := hpos i (le_refl i) (by omega)
      omega
    simp only [context.Process.loop, hin, if_true, bind]
    rw [Go.andThen_apply, (toSegment_eval B ctx state i w).1]
    simp only [hnn, if_false, hi, if_true]
    have hlen : i + 1 + fuel = (segments.set i (segmentAt B w.mem ctx state i)).length := by
      rw [List.length_set]; omega
    have hn' : (segments.set i (segmentAt B w.mem ctx state i)).length = num.toNat := by
      rw [List.length_set]; exact hn
    have hpos' : ∀ k, i + 1 ≤ k → k < i + 1 + fuel →
        0 ≤ Whisper_full_n_tokens_val B (toSegment B ctx state i w).2.mem state k := by
      intro k h1 h2
      rw [(toSegment_eval B ctx state i w).2]
      exact hpos k (by omega) (by omega)
    obtain ⟨h1, h2⟩ := ih (i + 1) _ (toSegment B ctx state i w).2 hlen hn' hpos'
    rw [(toSegment_eval B ctx state i w).2] at h1 h2
    refine ⟨?_, h2⟩
    rw [h1, take_succ_set _ _ _ hi]
    simp only [List.range'_succ, List.map_cons, List.append_assoc, List.singleton_append]

/-- The method `Process` succeeds whenever the model is loaded, the buffer is not empty, the
pipeline call returns status 0 and the counts the library then reports are not
negative; it returns one segment per index below the segment count. -/
theorem Process_succeeds (B : Backend σ P) (c : context P) (s : state) (data : List float32)
    (w : World σ) (hloaded : c.model.ctx ≠ nil) (hdata : data ≠ [])
    (hstatus : (Whisper_full_with_state_run B w.mem c.model.ctx s.st c.params data).1 = 0)
    (hsegments : 0 ≤ Whisper_full_n_segments_val B
      (Whisper_full_with_state_run B w.mem c.model.ctx s.st c.params data).2 s.st)
    (htokens : ∀ k : Nat, 0 ≤ Whisper_full_n_tokens_val B
      (Whisper_full_with_state_run B w.mem c.model.ctx s.st c.params data).2 s.st k) :
    (c.Process B s data w).1 = Result.ret
      (some ((List.range (Whisper_full_n_segments_val B
          (Whisper_full_with_state_run B w.mem c.model.ctx s.st c.params data).2 s.st).toNat).map
        (segmentAt B (Whisper_full_with_state_run B w.mem c.model.ctx s.st c.params data).2
          c.model.ctx s.st)), none) := by
  have h2 : ¬ data.length = 0 := by
    intro h
    exact hdata (List.length_eq_zero.mp h)
  have h4 : ¬ Whisper_full_n_segments_val B
      (Whisper_full_with_state_run B w.mem c.model.ctx s.st c.params data).2 s.st < 0 := by omega
  rw [Process_eval]
  simp only [hloaded, h2, hstatus, h4, if_false, ne_eq, not_true_eq_false]
  rw [Go.andThen_ret_fst, (Process_loop_succeeds B c.model.ctx s.st _ _ 0 _ _ (by simp) (by simp)
    (fun k _ _ => htokens k)).1]
  simp [List.range_eq_range']

/-- C5: whenever `Process` returns an error the returned slice is nil, and an
error is returned in two cases only.  When the model has been released (nil
handle) the error is `ErrInternalAppError` and the world is untouched: no call
is made into the library.  When the model is loaded, the buffer is not empty and
the pipeline call returns a non-zero status, the error is `ErrConversionFailed`
and the pipeline call is the only call made: no segment or token is read. -/
theorem Process_error_is_atomic (B : Backend σ P) (c : context P) (s : state)
    (data : List float32) (w : World σ) :
    (∀ segs e, (c.Process B s data w).1 = Result.ret (segs, some e) →
      segs = none ∧
      ((c.model.ctx = nil ∧ e = Error.ErrInternalAppError) ∨
       (c.model.ctx ≠ nil ∧ data ≠ [] ∧
        (Whisper_full_with_state_run B w.mem c.model.ctx s.st c.params data).1 ≠ 0 ∧
        e = Error.ErrConversionFailed))) ∧
    (c.model.ctx = nil →
      c.Process B s data w = (Result.ret (none, some Error.ErrInternalAppError), w)) ∧
    (c.model.ctx ≠ nil → data ≠ [] →
      (Whisper_full_with_state_run B w.mem c.model.ctx s.st c.params data).1 ≠ 0 →
      c.Process B s data w =
        (Result.ret (none, some Error.ErrConversionFailed),
          { mem := (Whisper_full_with_state_run B w.mem c.model.ctx s.st c.params data).2,
            calls := w.calls ++
              [CCall.whisper_full_with_state c.model.ctx s.st (C_int data.length)] })) := by
  refine ⟨?_, ?_, ?_⟩
  · intro segs e h
    rw [Process_eval] at h
    by_cases h1 : c.model.ctx = nil
    · simp only [h1, if_true, Result.ret.injEq, Prod.mk.injEq, Option.some.injEq] at h
      exact ⟨h.1.symm, Or.inl ⟨h1, h.2.symm⟩⟩
    by_cases h2 : data.length = 0
    · simp [h1, h2] at h
    have hdata : data ≠ [] := by
      intro hd
      exact h2 (by simp [hd])
    by_cases h3 : (Whisper_full_with_state_run B w.mem c.model.ctx s.st c.params data).1 = 0
    · by_cases h4 : Whisper_full_n_segments_val B
          (Whisper_full_with_state_run B w.mem c.model.ctx s.st c.params data).2 s.st < 0
      · simp [h1, h2, h3, h4] at h
      · simp only [h1, h2, h3, h4, if_false, ne_eq, not_true_eq_false] at h
        rw [Go.andThen_ret_fst] at h
        split at h <;> simp at h
    · simp only [h1, h2, h3, if_false, ne_eq, not_false_eq_true, if_true, Result.ret.injEq,
        Prod.mk.injEq, Option.some.injEq] at h
      exact ⟨h.1.symm, Or.inr ⟨h1, hdata, h3, h.2.symm⟩⟩
  · intro h1
    rw [Process_eval]
    simp only [h1, if_true]
  · intro h1 hdata h3
    have h2 : ¬ data.length = 0 := by
      intro h
      exact hdata (List.length_eq_zero.mp h)
    rw [Process_eval]
    simp only [h1, h2, h3, if_false, ne_eq, not_false_eq_true, if_true]

/-- C5, at concrete inputs: on a released model no call is logged, and a failing
pipeline run logs the pipeline call only. -/
theorem Process_error_is_atomic_witness :
    Example.released.Process Example.backend ⟨4096⟩ [⟨0⟩] (Example.world Example.hello)
      = (Result.ret (none, some Error.ErrInternalAppError), Example.world Example.hello) ∧
    Example.ctx.Process Example.backend ⟨4096⟩ [⟨0⟩] Example.failing
      = (Result.ret (none, some Error.ErrConversionFailed),
          { mem := Example.failing.mem, calls := [CCall.whisper_full_with_state 64 4096 1] }) :=
  ⟨(Process_error_is_atomic Example.backend Example.released ⟨4096⟩ [⟨0⟩]
      (Example.world Example.hello)).2.1 (by decide),
   (Process_error_is_atomic Example.backend Example.ctx ⟨4096⟩ [⟨0⟩] Example.failing).2.2
      (by decide) (by decide) (by decide)⟩

/-- The function `unicode_IsSpace` accepts exactly the white space of Unicode. -/
theorem unicode_IsSpace_iff (c : Char) : unicode_IsSpace c = true ↔ WhiteSpace c := by
  rcases c with ⟨⟨⟨n, hn⟩⟩, hvalid⟩
  simp only [unicode_IsSpace, WhiteSpace, Char.toNat, UInt32.toNat, Bool.or_eq_true,
    Bool.and_eq_true, decide_eq_true_eq, Char.ext_iff, UInt32.ext_iff, UInt32.le_def,
    Fin.le_def, List.mem_cons, List.mem_singleton, List.not_mem_nil, or_false]
  simp only [BitVec.le_def, BitVec.toNat_ofFin,
    show (UInt32.toBitVec 11).toNat = 11 from rfl,
    show (UInt32.toBitVec 12).toNat = 12 from rfl,
    show (UInt32.toBitVec 133).toNat = 133 from rfl,
    show (UInt32.toBitVec 160).toNat = 160 from rfl,
    show (UInt32.toBitVec 5760).toNat = 5760 from rfl,
    show (UInt32.toBitVec 8192).toNat = 8192 from rfl,
    show (UInt32.toBitVec 8202).toNat = 8202 from rfl,
    show (UInt32.toBitVec 8232).toNat = 8232 from rfl,
    show (UInt32.toBitVec 8233).toNat = 8233 from rfl,
    show (UInt32.toBitVec 8239).toNat = 8239 from rfl,
    show (UInt32.toBitVec 8287).toNat = 8287 from rfl,
    show (UInt32.toBitVec 12288).toNat = 12288 from rfl,
    show ('\t').val.toBitVec.toNat = 9 from rfl,
    show ('\n').val.toBitVec.toNat = 10 from rfl,
    show ('\r').val.toBitVec.toNat = 13 from rfl,
    show (' ').val.toBitVec.toNat = 32 from rfl]
  omega

theorem rdropWhile_append_rtakeWhile {α : Type} (p : α → Bool) (l : List α) :
    l.rdropWhile p ++ l.rtakeWhile p = l := by
  unfold List.rdropWhile List.rtakeWhile
  rw [← List.reverse_append, List.takeWhile_append_dropWhile, List.reverse_reverse]

/-- What `strings_TrimSpace` returns is its argument with the leading and the
trailing white space removed. -/
theorem strings_TrimSpace_trimmed (s : String) : TrimmedOf s (strings_TrimSpace s) := by
  refine ⟨s.toList.takeWhile unicode_IsSpace,
    (s.toList.dropWhile unicode_IsSpace).rtakeWhile unicode_IsSpace, ?_, ?_, ?_, ?_, ?_⟩
  · show s.toList = _ ++ (s.toList.dropWhile unicode_IsSpace).rdropWhile unicode_IsSpace ++ _
    rw [List.append_assoc, rdropWhile_append_rtakeWhile, List.takeWhile_append_dropWhile]
  · intro c hc
    exact (unicode_IsSpace_iff c).mp (List.mem_takeWhile_imp hc)
  · intro c hc
    exact (unicode_IsSpace_iff c).mp (List.mem_rtakeWhile_imp hc)
  · intro c hc hws
    have hc' : ((s.toList.dropWhile unicode_IsSpace).rdropWhile unicode_IsSpace).head? = some c :=
      hc
    have hne : (s.toList.dropWhile unicode_IsSpace).rdropWhile unicode_IsSpace ≠ [] := by
      intro h
      rw [h] at hc'
      simp at hc'
    have hhead := List.IsPrefix.head
      (List.rdropWhile_prefix unicode_IsSpace (s.toList.dropWhile unicode_IsSpace)) hne
    have hnot := List.head_dropWhile_not unicode_IsSpace s.toList
      ((List.rdropWhile_prefix unicode_IsSpace (s.toList.dropWhile unicode_IsSpace)).ne_nil hne)
    rw [← hhead] at hnot
    rw [List.head?_eq_head hne] at hc'
    simp only [Option.some.injEq] at hc'
    rw [hc'] at hnot
    rw [(unicode_IsSpace_iff c).mpr hws] at hnot
    exact Bool.noConfusion hnot
  · intro c hc hws
    have hc' : ((s.toList.dropWhile unicode_IsSpace).rdropWhile unicode_IsSpace).getLast?
        = some c := hc
    have hne : (s.toList.dropWhile unicode_IsSpace).rdropWhile unicode_IsSpace ≠ [] := by
      intro h
      rw [h] at hc'
      simp at hc'
    have hnot := List.rdropWhile_last_not unicode_IsSpace
      (s.toList.dropWhile unicode_IsSpace) hne
    rw [List.getLast?_eq_getLast _ hne] at hc'
    simp only [Option.some.injEq] at hc'
    rw [hc'] at hnot
    exact hnot ((unicode_IsSpace_iff c).mpr hws)

/-- C6: for every successful `Process` call, with `m` the library's memory after
the pipeline call, the returned slice has as many segments as the state's segment
count; the segment at position `i` has `Num = i`, `Text` the library's text of
segment `i` with its leading and trailing white space removed (the library's
text is a run of white space, then `Text`, then a run of white space, and `Text`
neither starts nor ends with white space), and as many tokens as the library's
token count of segment `i`; its `j`-th token carries the library's id, text and
probability of token `j` of segment `i`. -/
theorem Process_segments (B : Backend σ P) (c : context P) (s : state) (data : List float32)
    (w : World σ) (segs : List Segment) (m : σ)
    (h : (c.Process B s data w).1 = Result.ret (some segs, none))
    (hm : m = (Whisper_full_with_state_run B w.mem c.model.ctx s.st c.params data).2) :
    (segs.length : Int) = Whisper_full_n_segments_val B m s.st ∧
    ∀ (i : Nat) (seg : Segment), segs[i]? = some seg →
      seg.Num = i ∧
      TrimmedOf (Whisper_full_get_segment_text_val B m s.st i) seg.Text ∧
      (seg.Tokens.length : Int) = Whisper_full_n_tokens_val B m s.st i ∧
      ∀ (j : Nat) (tok : Token), seg.Tokens[j]? = some tok →
        tok.Id = Whisper_full_get_token_id_val B m s.st i j ∧
        tok.Text = Whisper_full_get_token_text_val B m s.st c.model.ctx i j ∧
        tok.P = Whisper_full_get_token_p_val B m s.st i j := by
  obtain ⟨_, _, _, hn, hsegs, htok⟩ := Process_success_eval B c s data w segs h
  rw [← hm] at hn hsegs htok
  subst hsegs
  refine ⟨?_, ?_⟩
  · simp only [List.length_map, List.length_range]
    omega
  · intro i seg hseg
    obtain ⟨hi, rfl⟩ := getElem?_map_range _ _ _ _ hseg
    have hcount := htok i (by omega)
    refine ⟨rfl, strings_TrimSpace_trimmed _, ?_, ?_⟩
    · simp only [segmentAt, List.length_map, List.length_range]
      omega
    · intro j tok htokj
      obtain ⟨_, rfl⟩ := getElem?_map_range _ _ _ _ htokj
      exact ⟨rfl, rfl, rfl⟩

/-- C6, at a concrete input: the run over the one-segment transcription whose text
has white space on both sides returns one segment, numbered 0, with the three
tokens, and its text "Hello world." is the library's text without the tab and
space in front and without the space, no-break space and line feed behind. -/
theorem Process_segments_witness :
    (Example.ctx.Process Example.backend ⟨4096⟩ [⟨0⟩] (Example.world Example.padded)).1
      = Result.ret (some
          [⟨0, "Hello world.", 0, 2500000000,
            [⟨50364, "[_BEG_]", ⟨1065353216⟩, 0, 0⟩,
             ⟨2425, " Hello", ⟨1061997773⟩, 0, 1200000000⟩,
             ⟨1002, " world.", ⟨1060320051⟩, 1200000000, 2500000000⟩]⟩], none) ∧
    ((1 : Nat) : Int) = Whisper_full_n_segments_val Example.backend
      (Whisper_full_with_state_run Example.backend (Example.world Example.padded).mem 64 4096
        Example.ctx.params [⟨0⟩]).2 4096 ∧
    TrimmedOf "\t Hello world. \u00a0\n" "Hello world." ∧
    "\t Hello world. \u00a0\n".toList
      = ['\t', ' '] ++ "Hello world.".toList ++ [' ', Char.ofNat 0xA0, '\n'] :=
  ⟨by decide,
   (Process_segments Example.backend Example.ctx ⟨4096⟩ [⟨0⟩] (Example.world Example.padded)
      [⟨0, "Hello world.", 0, 2500000000,
        [⟨50364, "[_BEG_]", ⟨1065353216⟩, 0, 0⟩,
         ⟨2425, " Hello", ⟨1061997773⟩, 0, 1200000000⟩,
         ⟨1002, " world.", ⟨1060320051⟩, 1200000000, 2500000000⟩]⟩] _ (by decide) rfl).1,
   ((Process_segments Example.backend Example.ctx ⟨4096⟩ [⟨0⟩] (Example.world Example.padded)
      [⟨0, "Hello world.", 0, 2500000000,
        [⟨50364, "[_BEG_]", ⟨1065353216⟩, 0, 0⟩,
         ⟨2425, " Hello", ⟨1061997773⟩, 0, 1200000000⟩,
         ⟨1002, " world.", ⟨1060320051⟩, 1200000000, 2500000000⟩]⟩] _ (by decide) rfl).2
      0 _ rfl).2.1,
   by decide⟩

end pkg

/-! ## Durations (C7) and timing order (C8) -/

namespace pkg

open whisper

variable {σ P : Type}

/-- Within the range, the wrapping product is the exact product. -/
theorem ticks_of_range {x : Int} (h : TickInRange x) : ticks x = x * 10000000 := by
  unfold TickInRange at h
  have h1 : wrap64 (x * 1000000) = x * 1000000 := by
    unfold wrap64
    omega
  have h2 : wrap64 (x * 1000000 * 10) = x * 10000000 := by
    unfold wrap64
    omega
  show wrap64 (wrap64 (x * 1000000) * 10) = x * 10000000
  rw [h1, h2]

theorem ticks_Milliseconds {x : Int} (h : TickInRange x) :
    Duration.Milliseconds (ticks x) = 10 * x := by
  rw [ticks_of_range h]
  unfold Duration.Milliseconds
  have e : x * 10000000 = (10 * x) * 1000000 := by ring
  rw [e]
  exact Int.mul_tdiv_cancel _ (by decide)

theorem ticks_mono {x y : Int} (hx : TickInRange x) (hy : TickInRange y) (h : x ≤ y) :
    ticks x ≤ ticks y := by
  rw [ticks_of_range hx, ticks_of_range hy]
  show (x * 10000000 : Int) ≤ y * 10000000
  omega

/-- C7, as stated, fails: for the segment tick 922337203686 the product
overflows; `toSegment` returns `Start = -9223372036849551616` ns, which is
-9223372036849 ms and not 10 times the tick. -/
theorem ticks_overflow :
    Whisper_full_get_segment_t0_val Example.backend (Example.decoded Example.far).mem 4096 0
      = 922337203686 ∧
    (toSegment Example.backend 64 4096 0 (Example.decoded Example.far)).1
      = Result.ret ⟨0, "", -9223372036849551616, -9223372036849551616, []⟩ ∧
    Duration.Milliseconds (-9223372036849551616) ≠ 10 * 922337203686 := by
  decide

/-- C7 (amended): for every tick `x` with `|x| ≤ 922337203685` that the library
reports as the start or end of a segment or of a token, the `Start`/`End` that
`toSegment` (through `toTokens` for the tokens) returns is `x` multiplied by
10 milliseconds: `x * 10^7` nanoseconds, that is exactly `10 * x` milliseconds. -/
theorem toSegment_durations (B : Backend σ P) (ctx state : Ptr) (n : Nat) (w : World σ)
    (seg : Segment) (h : (toSegment B ctx state n w).1 = Result.ret seg) :
    (TickInRange (Whisper_full_get_segment_t0_val B w.mem state n) →
      seg.Start = Whisper_full_get_segment_t0_val B w.mem state n * 10 * Millisecond ∧
      Duration.Milliseconds seg.Start = 10 * Whisper_full_get_segment_t0_val B w.mem state n) ∧
    (TickInRange (Whisper_full_get_segment_t1_val B w.mem state n) →
      seg.End = Whisper_full_get_segment_t1_val B w.mem state n * 10 * Millisecond ∧
      Duration.Milliseconds seg.End = 10 * Whisper_full_get_segment_t1_val B w.mem state n) ∧
    ∀ (j : Nat) (tok : Token), seg.Tokens[j]? = some tok →
      (TickInRange (Whisper_full_get_token_data_val B w.mem state n j).T0 →
        tok.Start = (Whisper_full_get_token_data_val B w.mem state n j).T0 * 10 * Millisecond ∧
        Duration.Milliseconds tok.Start
          = 10 * (Whisper_full_get_token_data_val B w.mem state n j).T0) ∧
      (TickInRange (Whisper_full_get_token_data_val B w.mem state n j).T1 →
        tok.End = (Whisper_full_get_token_data_val B w.mem state n j).T1 * 10 * Millisecond ∧
        Duration.Milliseconds tok.End
          = 10 * (Whisper_full_get_token_data_val B w.mem state n j).T1) := by
  rw [(toSegment_eval B ctx state n w).1] at h
  split_ifs at h with hneg
  simp only [Result.ret.injEq] at h
  subst h
  have key : ∀ x : Int, TickInRange x →
      ticks x = x * 10 * Millisecond ∧ Duration.Milliseconds (ticks x) = 10 * x := by
    intro x hx
    refine ⟨?_, ticks_Milliseconds hx⟩
    rw [ticks_of_range hx]
    show (x * 10000000 : Int) = x * 10 * 1000000
    ring
  refine ⟨key _, key _, ?_⟩
  intro j tok htok
  obtain ⟨_, rfl⟩ := getElem?_map_range _ _ _ _ htok
  exact ⟨key _, key _⟩

/-- C7 (amended), at a concrete input: the segment of the example transcription
ends at tick 250, that is after 2500 ms. -/
theorem toSegment_durations_witness :
    (2500000000 : Duration) = 250 * 10 * Millisecond ∧
    Duration.Milliseconds 2500000000 = 10 * 250 :=
  (toSegment_durations Example.backend 64 4096 0 (Example.decoded Example.hello)
    ⟨0, "Hello world.", 0, 2500000000,
      [⟨50364, "[_BEG_]", ⟨1065353216⟩, 0, 0⟩,
       ⟨2425, " Hello", ⟨1061997773⟩, 0, 1200000000⟩,
       ⟨1002, " world.", ⟨1060320051⟩, 1200000000, 2500000000⟩]⟩ (by decide)).2.1 (by decide)


/-- C8, as stated, fails: `Process` copies the ticks it is given.  With a library
that reports the tick `-1` for every token (a token without a timestamp), the
run succeeds and returns a segment starting at 0 ms whose tokens start and end
at -10 ms, outside the segment. -/
theorem Process_untimed_tokens :
    (Example.ctx.Process Example.backend ⟨4096⟩ [⟨0⟩] (Example.world Example.untimed)).1
      = Result.ret (some
          [⟨0, "Hello world.", 0, 2500000000,
            [⟨50364, "[_BEG_]", ⟨1065353216⟩, -10000000, -10000000⟩,
             ⟨2425, " Hello", ⟨1061997773⟩, -10000000, -10000000⟩,
             ⟨1002, " world.", ⟨1060320051⟩, -10000000, -10000000⟩]⟩], none) ∧
    ¬ WellTimed
          [⟨0, "Hello world.", 0, 2500000000,
            [⟨50364, "[_BEG_]", ⟨1065353216⟩, -10000000, -10000000⟩,
             ⟨2425, " Hello", ⟨1061997773⟩, -10000000, -10000000⟩,
             ⟨1002, " world.", ⟨1060320051⟩, -10000000, -10000000⟩]⟩] := by
  decide

/-- C8 (amended): `Process` neither checks nor reorders what the library reports.
For every successful `Process` call, if the ticks the library holds after the
pipeline call are in the range that does not overflow, have non-decreasing
segment starts, and have every token's `t0 ≤ t1` within its segment's `[t0, t1]`,
then the returned segments are ordered by non-decreasing `Start` and every token
of every segment has `Start ≤ End`, both within `[segment.Start, segment.End]`. -/
theorem Process_preserves_timing (B : Backend σ P) (c : context P) (s : state)
    (data : List float32) (w : World σ) (segs : List Segment)
    (h : (c.Process B s data w).1 = Result.ret (some segs, none))
    (hticks : TicksWellTimed B
      (Whisper_full_with_state_run B w.mem c.model.ctx s.st c.params data).2 s.st) :
    WellTimed segs := by
  obtain ⟨_, _, _, _, hsegs, _⟩ := Process_success_eval B c s data w segs h
  subst hsegs
  obtain ⟨hord, hin⟩ := hticks
  refine ⟨?_, ?_⟩
  · rw [List.pairwise_map]
    refine List.Pairwise.imp_of_mem ?_ hord
    intro i j hi hj hij
    exact ticks_mono (hin i hi).1 (hin j hj).1 hij
  · intro seg hseg tok htok
    rw [List.mem_map] at hseg
    obtain ⟨i, hi, rfl⟩ := hseg
    simp only [segmentAt, List.mem_map] at htok
    obtain ⟨j, hj, rfl⟩ := htok
    obtain ⟨r0, r1, htoks⟩ := hin i hi
    obtain ⟨q0, q1, h01, hlo, hhi⟩ := htoks j hj
    simp only [segmentAt, tokenAt]
    have hlo1 : Whisper_full_get_segment_t0_val B
        (Whisper_full_with_state_run B w.mem c.model.ctx s.st c.params data).2 s.st i
          ≤ (Whisper_full_get_token_data_val B
        (Whisper_full_with_state_run B w.mem c.model.ctx s.st c.params data).2 s.st i j).T1 :=
      le_trans hlo h01
    have hhi0 : (Whisper_full_get_token_data_val B
        (Whisper_full_with_state_run B w.mem c.model.ctx s.st c.params data).2 s.st i j).T0
          ≤ Whisper_full_get_segment_t1_val B
        (Whisper_full_with_state_run B w.mem c.model.ctx s.st c.params data).2 s.st i :=
      le_trans h01 hhi
    exact ⟨ticks_mono q0 q1 h01, ticks_mono r0 q0 hlo, ticks_mono q0 r1 hhi0,
      ticks_mono r0 q1 hlo1, ticks_mono q1 r1 hhi⟩

/-- C8 (amended), at a concrete input: the run over the example transcription,
whose ticks are ordered, returns a well-timed slice. -/
theorem Process_preserves_timing_witness :
    WellTimed
      [⟨0, "Hello world.", 0, 2500000000,
        [⟨50364, "[_BEG_]", ⟨1065353216⟩, 0, 0⟩,
         ⟨2425, " Hello", ⟨1061997773⟩, 0, 1200000000⟩,
         ⟨1002, " world.", ⟨1060320051⟩, 1200000000, 2500000000⟩]⟩] :=
  Process_preserves_timing Example.backend Example.ctx ⟨4096⟩ [⟨0⟩] (Example.world Example.hello)
    _ (by decide) (by unfold TicksWellTimed; decide)

end pkg

/-! ## Releasing a state (C9) -/

namespace pkg

open whisper

variable {σ P : Type}

/-- Calling `Close` on a state without a handle frees nothing; `Close` on a state with a
handle frees it and leaves the handle in place, so a second `Close` frees the
same handle again. -/
theorem state_Close_eval (B : Backend σ P) (s : state) (w : World σ) :
    (s.st = nil → s.Close B w = (Result.ret none, w)) ∧
    (s.st ≠ nil →
      s.Close B w = (Result.ret none,
        { mem := B.whisper_free_state w.mem s.st,
          calls := w.calls ++ [CCall.whisper_free_state s.st] }) ∧
      Go.andThen (s.Close B) (fun _ => s.Close B) w = (Result.ret none,
        { mem := B.whisper_free_state (B.whisper_free_state w.mem s.st) s.st,
          calls := w.calls ++ [CCall.whisper_free_state s.st, CCall.whisper_free_state s.st] })) := by
  have hclose : ∀ w : World σ, s.st ≠ nil →
      s.Close B w = (Result.ret none,
        { mem := B.whisper_free_state w.mem s.st,
          calls := w.calls ++ [CCall.whisper_free_state s.st] }) := by
    intro w h
    simp only [state.Close, State.Close, h, ne_eq, not_false_eq_true, if_true, bind, pure,
      Go.andThen_update, Go.ret]
  refine ⟨?_, ?_⟩
  · intro h
    simp only [state.Close, h, ne_eq, not_true_eq_false, if_false, pure, Go.ret]
  · intro h
    refine ⟨hclose w h, ?_⟩
    rw [Go.andThen_of_ret (hclose w h), hclose _ h]
    simp

/-- C9, evaluated at the failing input: a state that was never initialised is
closed without any call into the library, but closing the state with handle 4096
twice calls `whisper_free_state(4096)` twice: the handle is freed two times. -/
theorem state_Close_twice_frees_twice :
    state.Close Example.backend ⟨nil⟩ (Example.world [])
      = (Result.ret none, Example.world []) ∧
    (Go.andThen (state.Close Example.backend ⟨4096⟩)
        (fun _ => state.Close Example.backend ⟨4096⟩) (Example.world [])).2.calls
      = [CCall.whisper_free_state 4096, CCall.whisper_free_state 4096] ∧
    (Go.andThen (state.Close Example.backend ⟨4096⟩)
        (fun _ => state.Close Example.backend ⟨4096⟩) (Example.world [])).2.mem.freed
      = [4096, 4096] := by
  decide

end pkg

/-! ## The example's run loop (C10) -/

namespace main

open whisper pkg

variable {σ P : Type}

theorem NewState_eval (B : Backend σ P) (c : context P) (w : World σ) :
    c.NewState B w = (Result.ret ⟨(B.whisper_init_state w.mem c.model.ctx).1⟩,
      { mem := (B.whisper_init_state w.mem c.model.ctx).2,
        calls := w.calls ++ [CCall.whisper_init_state c.model.ctx] }) := by
  simp only [context.NewState, Whisper_init_state, bind, pure, Go.andThen_update, Go.ret]

/-- The first loop allocates one state per iteration, sends one message per
iteration, and makes no other call into the library. -/
theorem spawn_eval (B : Backend σ P) (Sprintf : Nat → state → List float32 → String)
    (c : context P) (data : List float32) (n : Int) (fuel : Nat) :
    ∀ (i : Nat) (quit : Chan) (w : World σ), (i : Int) + fuel = n → i + fuel ≤ quit.cap →
      quit.buf.length = i →
      ∃ quit', (Process.spawn B Sprintf c data n fuel i quit w).1 = Result.ret quit' ∧
        quit'.cap = quit.cap ∧ quit'.buf.length = i + fuel ∧
        (Process.spawn B Sprintf c data n fuel i quit w).2.calls
          = w.calls ++ List.replicate fuel (CCall.whisper_init_state c.model.ctx) := by
  induction fuel with
  | zero =>
    intro i quit w _ _ hbuf
    exact ⟨quit, rfl, rfl, by simpa using hbuf, by simp [Process.spawn, pure, Go.ret]⟩
  | succ fuel ih =>
    intro i quit w hn hcap hbuf
    have hin : (i : Int) < n := by omega
    have hroom : quit.buf.length < quit.cap := by omega
    simp only [Process.spawn, hin, if_true, bind]
    rw [Go.andThen_of_ret (NewState_eval B c w)]
    simp only [Chan.send, hroom, if_true, pure, Go.andThen_ret]
    obtain ⟨quit', h1, h2, h3, h4⟩ := ih (i + 1)
      { cap := quit.cap, buf := quit.buf ++ [Sprintf i ⟨(B.whisper_init_state w.mem c.model.ctx).1⟩ data] }
      { mem := (B.whisper_init_state w.mem c.model.ctx).2,
        calls := w.calls ++ [CCall.whisper_init_state c.model.ctx] }
      (by push_cast; omega) (by simp only; omega) (by simp [hbuf])
    refine ⟨quit', h1, h2, by omega, ?_⟩
    rw [h4]
    simp [List.replicate_succ]

/-- The second loop prints the waiting messages in the order they were sent and
makes no call into the library. -/
theorem collect_eval (n : Int) (fuel : Nat) :
    ∀ (i : Nat) (quit : Chan) (out : List String) (w : World σ), (i : Int) + fuel = n →
      quit.buf.length = fuel →
      Process.collect n fuel i quit out w = (Result.ret (out ++ quit.buf), w) := by
  induction fuel with
  | zero =>
    intro i quit out w _ hbuf
    have : quit.buf = [] := List.length_eq_zero.mp hbuf
    simp [Process.collect, pure, Go.ret, this]
  | succ fuel ih =>
    intro i quit out w hn hbuf
    have hin : (i : Int) < n := by omega
    obtain ⟨cap, buf⟩ := quit
    cases buf with
    | nil => simp at hbuf
    | cons v rest =>
      simp only [Process.collect, hin, if_true, bind, Chan.recv, pure, Go.andThen_ret]
      rw [ih (i + 1) _ _ _ (by push_cast; omega) (by simpa using hbuf)]
      simp

/-- For every `n ≥ 0` the run loop returns `n` lines and no error, and the calls it
makes into the library are `whisper_reset_timings`, `n` times
`whisper_init_state`, and `whisper_print_timings`: the pipeline is never run. -/
theorem Process_eval_calls (B : Backend σ P) (Sprintf : Nat → state → List float32 → String)
    (c : context P) (data : List float32) (n : Int) (w : World σ) (hn : 0 ≤ n) :
    ∃ lines, (main.Process B Sprintf c data n w).1 = Result.ret (lines, none) ∧
      (lines.length : Int) = n ∧
      (main.Process B Sprintf c data n w).2.calls
        = w.calls ++ [CCall.whisper_reset_timings c.model.ctx]
            ++ List.replicate n.toNat (CCall.whisper_init_state c.model.ctx)
            ++ [CCall.whisper_print_timings c.model.ctx] := by
  have hneg : ¬ n < 0 := by omega
  simp only [main.Process, hneg, if_false, bind, pure, context.ResetTimings,
    Whisper_reset_timings, context.PrintTimings, Whisper_print_timings, Go.andThen_update]
  obtain ⟨quit', h1, h2, h3, h4⟩ := spawn_eval B Sprintf c data n n.toNat 0
    { cap := n.toNat, buf := [] }
    { mem := B.whisper_reset_timings w.mem c.model.ctx,
      calls := w.calls ++ [CCall.whisper_reset_timings c.model.ctx] }
    (by push_cast; omega) (by simp) rfl
  rw [Go.andThen_apply, h1]
  simp only
  rw [Go.andThen_of_ret (collect_eval n n.toNat 0 quit' [] _ (by push_cast; omega) (by omega))]
  simp only [Go.andThen_update, Go.ret, List.nil_append, h4]
  exact ⟨quit'.buf, rfl, by omega, trivial⟩

/-- C10, evaluated at the failing input `n = 2`: the run loop allocates two states
and prints two lines, each the text formatted from the state in its iteration,
and the calls it makes into the library are `whisper_reset_timings`, two
`whisper_init_state` and `whisper_print_timings`: `whisper_full_with_state` is
never called, the transcription is not executed. -/
theorem Process_runs_no_transcription :
    main.Process Example.backend (fun i s _ => toString i ++ " " ++ toString s.st) Example.ctx
        [⟨0⟩] 2 (Example.world Example.hello)
      = (Result.ret (["0 4096", "1 4097"], none),
          { mem := { Example.mem Example.hello with next := 4098 },
            calls := [CCall.whisper_reset_timings 64, CCall.whisper_init_state 64,
                      CCall.whisper_init_state 64, CCall.whisper_print_timings 64] }) := by
  decide

end main

/-! ## The sample buffer of Process (C11) -/

namespace Go

variable {σ α β : Type}

theorem Appends.ret (a : α) : (Go.ret a : Go σ α).Appends :=
  fun w => ⟨[], by simp [Go.ret]⟩

theorem Appends.throw (p : Panic) : (Go.throw p : Go σ α).Appends :=
  fun w => ⟨[], by simp [Go.throw]⟩

theorem Appends.read (c : CCall) (v : σ → α) : (Go.read c v).Appends :=
  fun _ => ⟨[c], rfl⟩

theorem Appends.update (c : CCall) (f : σ → α × σ) : (Go.update c f).Appends :=
  fun _ => ⟨[c], rfl⟩

theorem Appends.andThen {x : Go σ α} {f : α → Go σ β} (hx : x.Appends)
    (hf : ∀ a, (f a).Appends) : (Go.andThen x f).Appends := by
  intro w
  obtain ⟨r1, h1⟩ := hx w
  rw [Go.andThen_apply]
  cases hr : (x w).1 with
  | panic p => exact ⟨r1, h1⟩
  | ret a =>
    obtain ⟨r2, h2⟩ := hf a (x w).2
    exact ⟨r1 ++ r2, by simp only [h2, h1, List.append_assoc]⟩

end Go

namespace pkg

open whisper

variable {σ P : Type}

theorem toTokens_loop_Appends (B : Backend σ P) (ctx state : Ptr) (n : Int) (fuel : Nat) :
    ∀ (i : Nat) (result : List Token), (toTokens.loop B ctx state n fuel i result).Appends := by
  induction fuel with
  | zero =>
    intro i result
    exact Go.Appends.ret result
  | succ fuel ih =>
    intro i result
    simp only [toTokens.loop, bind, pure]
    split_ifs
    · exact Go.Appends.andThen (Go.Appends.read _ _) fun _ =>
        Go.Appends.andThen (Go.Appends.read _ _) fun _ =>
        Go.Appends.andThen (Go.Appends.read _ _) fun _ =>
        Go.Appends.andThen (Go.Appends.read _ _) fun _ => ih _ _
    · exact Go.Appends.ret result

theorem toTokens_Appends (B : Backend σ P) (ctx state : Ptr) (n : Int) :
    (toTokens B ctx state n).Appends := by
  simp only [toTokens, bind]
  refine Go.Appends.andThen (Go.Appends.read _ _) fun len => ?_
  split_ifs
  · exact Go.Appends.throw _
  · exact toTokens_loop_Appends B ctx state n _ _ _

theorem toSegment_Appends (B : Backend σ P) (ctx state : Ptr) (n : Int) :
    (toSegment B ctx state n).Appends := by
  simp only [toSegment, bind, pure]
  exact Go.Appends.andThen (Go.Appends.read _ _) fun _ =>
    Go.Appends.andThen (Go.Appends.read _ _) fun _ =>
    Go.Appends.andThen (Go.Appends.read _ _) fun _ =>
    Go.Appends.andThen (toTokens_Appends B ctx state n) fun _ => Go.Appends.ret _

theorem Process_loop_Appends (B : Backend σ P) (ctx state : Ptr) (num : Int) (fuel : Nat) :
    ∀ (i : Nat) (segments : List Segment),
      (context.Process.loop B ctx state num fuel i segments).Appends := by
  induction fuel with
  | zero =>
    intro i segments
    exact Go.Appends.ret segments
  | succ fuel ih =>
    intro i segments
    simp only [context.Process.loop, bind, pure]
    by_cases hin : (i : Int) < num
    · simp only [hin, if_true]
      refine Go.Appends.andThen (toSegment_Appends B ctx state i) fun seg => ?_
      by_cases hi : i < segments.length
      · simp only [hi, if_true]
        exact ih _ _
      · simp only [hi, if_false]
        exact Go.Appends.throw _
    · simp only [hin, if_false]
      exact Go.Appends.ret segments

/-- The loop of `Process` ends by returning or by the panic of `make` in
`toTokens`: the store to `segments[i]` is always within bounds. -/
theorem Process_loop_no_index_fault (B : Backend σ P) (ctx state : Ptr) (num : Int) (fuel : Nat) :
    ∀ (i : Nat) (segments : List Segment) (w : World σ), i + fuel = segments.length →
      segments.length = num.toNat → ∀ (j : Int) (len : Nat),
      (context.Process.loop B ctx state num fuel i segments w).1
        ≠ Result.panic (Panic.indexOutOfRange j len) := by
  induction fuel with
  | zero =>
    intro i segments w _ _ j len
    simp [context.Process.loop, pure, Go.ret]
  | succ fuel ih =>
    intro i segments w h hn j len
    have hi : i < segments.length := by omega
    have hin : (i : Int) < num := by omega
    simp only [context.Process.loop, hin, if_true, bind]
    rw [Go.andThen_apply, (toSegment_eval B ctx state i w).1]
    by_cases hneg : Whisper_full_n_tokens_val B w.mem state i < 0
    · simp [hneg]
    · simp only [hneg, if_false, hi, if_true]
      exact ih (i + 1) _ _ (by rw [List.length_set]; omega) (by rw [List.length_set]; exact hn)
        j len

/-- C11: for every context on a loaded model and every state, `Process` with a
non-empty sample buffer reaches the pipeline call (the binding returns, and the
call is the first that `Process` logs) and never ends in an index fault, whereas
`Process` with an empty sample buffer returns neither segments nor an error: it
panics with `index out of range [0] with length 0` at `&samples[0]`, the world
being untouched, so the library has not been called. -/
theorem Process_sample_index (B : Backend σ P) (c : context P) (s : state)
    (data : List float32) (w : World σ) (hloaded : c.model.ctx ≠ nil) :
    (data ≠ [] →
      (∃ e, Whisper_full_with_state B c.model.ctx s.st c.params data w =
        (Result.ret e,
          { mem := (Whisper_full_with_state_run B w.mem c.model.ctx s.st c.params data).2,
            calls := w.calls ++
              [CCall.whisper_full_with_state c.model.ctx s.st (C_int data.length)] })) ∧
      (∃ rest, (c.Process B s data w).2.calls = w.calls ++
        CCall.whisper_full_with_state c.model.ctx s.st (C_int data.length) :: rest) ∧
      ∀ (j : Int) (len : Nat),
        (c.Process B s data w).1 ≠ Result.panic (Panic.indexOutOfRange j len)) ∧
    (data = [] →
      Whisper_full_with_state B c.model.ctx s.st c.params data w
        = (Result.panic (Panic.indexOutOfRange 0 0), w) ∧
      c.Process B s data w = (Result.panic (Panic.indexOutOfRange 0 0), w)) := by
  refine ⟨?_, ?_⟩
  · intro hdata
    have h2 : ¬ data.length = 0 := by
      intro h
      exact hdata (List.length_eq_zero.mp h)
    refine ⟨?_, ?_, ?_⟩
    · rw [Whisper_full_with_state_eval]
      simp only [h2, if_false]
      exact ⟨_, rfl⟩
    · rw [Process_eval]
      simp only [hloaded, h2, if_false]
      split_ifs with h3 h4
      · exact ⟨[], by simp⟩
      · exact ⟨[CCall.whisper_full_n_segments_from_state s.st], by simp⟩
      · rw [Go.andThen_ret_snd]
        obtain ⟨rest, hrest⟩ := Process_loop_Appends B c.model.ctx s.st _ _ 0 _
          { mem := (Whisper_full_with_state_run B w.mem c.model.ctx s.st c.params data).2,
            calls := w.calls ++
              [CCall.whisper_full_with_state c.model.ctx s.st (C_int data.length)] ++
              [CCall.whisper_full_n_segments_from_state s.st] }
        exact ⟨CCall.whisper_full_n_segments_from_state s.st :: rest, by rw [hrest]; simp⟩
    · intro j len
      rw [Process_eval]
      simp only [hloaded, h2, if_false]
      split_ifs with h3 h4
      · simp
      · simp
      · rw [Go.andThen_ret_fst]
        have hloop := Process_loop_no_index_fault B c.model.ctx s.st
          (Whisper_full_n_segments_val B
            (Whisper_full_with_state_run B w.mem c.model.ctx s.st c.params data).2 s.st)
          (Whisper_full_n_segments_val B
            (Whisper_full_with_state_run B w.mem c.model.ctx s.st c.params data).2 s.st).toNat 0
          (List.replicate (Whisper_full_n_segments_val B
            (Whisper_full_with_state_run B w.mem c.model.ctx s.st c.params data).2 s.st).toNat
            Segment.zero)
          { mem := (Whisper_full_with_state_run B w.mem c.model.ctx s.st c.params data).2,
            calls := w.calls ++
              [CCall.whisper_full_with_state c.model.ctx s.st (C_int data.length)] ++
              [CCall.whisper_full_n_segments_from_state s.st] }
          (by simp) (by simp) j len
        split
        · simp
        · rename_i p hp
          intro hcontra
          simp only [Result.panic.injEq] at hcontra
          rw [hcontra] at hp
          exact hloop hp
  · intro hdata
    subst hdata
    refine ⟨?_, ?_⟩
    · rw [Whisper_full_with_state_eval]
      simp
    · rw [Process_eval]
      simp [hloaded]

/-- C11, at concrete inputs: on the loaded example model a one-sample buffer
reaches the pipeline call, and the empty buffer panics before any call. -/
theorem Process_sample_index_witness :
    (∃ rest, (Example.ctx.Process Example.backend ⟨4096⟩ [⟨0⟩]
        (Example.world Example.hello)).2.calls
      = (Example.world Example.hello).calls ++ CCall.whisper_full_with_state 64 4096 1 :: rest) ∧
    Example.ctx.Process Example.backend ⟨4096⟩ [] (Example.world Example.hello)
      = (Result.panic (Panic.indexOutOfRange 0 0), Example.world Example.hello) :=
  ⟨((Process_sample_index Example.backend Example.ctx ⟨4096⟩ [⟨0⟩] (Example.world Example.hello)
      (by decide)).1 (by decide)).2.1,
   ((Process_sample_index Example.backend Example.ctx ⟨4096⟩ [] (Example.world Example.hello)
      (by decide)).2 rfl).2⟩

end pkg
